import Mathlib

/-!
# Notification component of Icinga 2: scheduling core

A shallow embedding of `lib/notification/notificationcomponent.{hpp,cpp}`.

* Object identities (`Notification::Ptr`) are natural numbers.
* `double` timestamps are exact rationals.
* The two `boost::multi_index_container`s are lists kept in the order of the
  time view (index 1); the identity view (index 0) is unique.
* The mutable configuration objects live in a store `objects`, read by the
  handlers at the point where the source reads them.
* `Notification::BeginExecuteNotification` is external to the component: every
  call is recorded in a trace, and its effect on the notification objects is a
  parameter `exec` of the handlers that call it.
* Locks, condition variables and logging are not represented; every handler is
  one atomic step on the component state.
-/

namespace Icinga

/-! ## Enumerations and object attributes -/

/-- The `StateType` enumeration. -/
inductive StateType where
  | StateTypeSoft
  | StateTypeHard
deriving DecidableEq, Repr

/-- Modelled from the spec: the `ServiceState` enumeration is declared outside
the component; scenarios S1 and S2 use `state=0` for OK and `state=2` for a
problem, and the source itself compares `cr->GetState()` with `0`. States are
their numeric codes. -/
abbrev ServiceState := Nat

/-- Modelled from the spec: `ServiceOK` is the numeric state `0`
(`cr{state=0}` is the recovery result of scenario S2). -/
def ServiceOK : ServiceState := 0

/-- Modelled from the spec: the `HostState` enumeration is declared outside the
component; host states are their numeric codes. -/
abbrev HostState := Nat

/-- Modelled from the spec: `HostUp` is the OK/Up state of a host, numeric `0`. -/
def HostUp : HostState := 0

/-- The notification types the component passes to the delivery call. -/
inductive NotificationType where
  | NotificationAcknowledgement
  | NotificationProblem
  | NotificationRecovery
  | NotificationFlappingStart
  | NotificationFlappingEnd
deriving DecidableEq, Repr

/-- A check result; the component only reads its state. -/
structure CheckResult where
  State : ServiceState
deriving DecidableEq, Repr

/-- The result of `GetHostService(checkable)` together with the state the
component reads from it: a host checkable has no service. -/
inductive HostService where
  | host (hostState : HostState)
  | service (serviceState : ServiceState)
deriving DecidableEq, Repr

/-- The attributes of a checkable that the component reads. `Notifications` is
the iteration order of the `std::set` returned by `GetNotifications()`. -/
structure Checkable where
  StateType : Icinga.StateType
  LastStateType : Icinga.StateType
  StateRaw : ServiceState
  LastStateRaw : ServiceState
  /-- Result of `IsReachable(DependencyNotification)`. -/
  Reachable : Bool
  InDowntime : Bool
  Acknowledged : Bool
  Flapping : Bool
  Volatile : Bool
  Notifications : List Nat
  LastCheckResult : Option CheckResult
  HostService : Icinga.HostService

/-- The attributes of a notification object that the component reads or
writes. `Zone` is the result of `Zone::GetByName(GetZoneName())`. -/
structure Notification where
  Active : Bool
  Paused : Bool
  Zone : Option Nat
  Checkable : Icinga.Checkable
  NextNotification : ℚ

/-! ## `HardStateNotificationCheck` -/

/-- Method `NotificationComponent::HardStateNotificationCheck`, statement by
statement: the early return, then the four assignments to
`send_notification` in source order. -/
def HardStateNotificationCheck (checkable : Checkable) : Bool :=
  let send_notification := true
  if !checkable.Reachable || checkable.InDowntime
      || checkable.Acknowledged || checkable.Flapping then
    false
  else
    let send_notification :=
      if checkable.LastStateType = StateType.StateTypeSoft ∨
          (checkable.LastStateType = StateType.StateTypeHard
            ∧ checkable.LastStateRaw ≠ ServiceOK
            ∧ checkable.StateRaw = ServiceOK) then true
      else send_notification
    let send_notification :=
      if checkable.Volatile then true else send_notification
    let send_notification :=
      if checkable.LastStateRaw = ServiceOK
          ∧ checkable.LastStateType = StateType.StateTypeSoft then false
      else send_notification
    let send_notification :=
      if checkable.Volatile ∧ checkable.LastStateRaw = ServiceOK
          ∧ checkable.StateRaw = ServiceOK then false
      else send_notification
    send_notification

/-! ## `NotificationSet`: the multi-index container -/

/-- Record `struct NotificationScheduleInfo`. -/
structure NotificationScheduleInfo where
  Object : Nat
  NextMessage : ℚ
deriving DecidableEq

/-- Container `NotificationComponent::NotificationSet`: the entries in the order of the
time view (`ordered_non_unique` on `NextMessage`). -/
structure NotificationSet where
  entries : List NotificationScheduleInfo
deriving DecidableEq

namespace NotificationSet

/-- The empty container. -/
def empty : NotificationSet := ⟨[]⟩

/-- Position of a new element in the time view: after every element whose key
is not greater (the upper bound of its key). -/
def insertByTime (x : NotificationScheduleInfo) :
    List NotificationScheduleInfo → List NotificationScheduleInfo
  | [] => [x]
  | y :: ys => if x.NextMessage < y.NextMessage then x :: y :: ys
               else y :: insertByTime x ys

/-- Lookup `find(key)` in the identity view (index 0). -/
def find (s : NotificationSet) (key : Nat) : Option NotificationScheduleInfo :=
  s.entries.find? (fun e => e.Object == key)

/-- Container `insert(nsi)`: refused by the unique identity index when an
element with the same `Object` is present, else placed by the time index. -/
def insert (s : NotificationSet) (nsi : NotificationScheduleInfo) : NotificationSet :=
  match s.find nsi.Object with
  | some _ => s
  | none => ⟨insertByTime nsi s.entries⟩

/-- Container `erase(key)` on the identity view: removes the elements with that
key. -/
def erase (s : NotificationSet) (key : Nat) : NotificationSet :=
  ⟨s.entries.filter (fun e => e.Object != key)⟩

/-- First element `*begin()` of the time view, if any. -/
def first (s : NotificationSet) : Option NotificationScheduleInfo :=
  s.entries.head?

/-- Container `size()`. -/
def size (s : NotificationSet) : Nat := s.entries.length

/-- The notification identities held by the container. -/
def ids (s : NotificationSet) : List Nat := s.entries.map (fun e => e.Object)

/-- The invariants the two indices maintain: identities are unique and the
time view is ordered. -/
def WF (s : NotificationSet) : Prop :=
  s.ids.Nodup ∧ s.entries.Pairwise (fun a b => a.NextMessage ≤ b.NextMessage)

end NotificationSet

/-! ## Component state -/

/-- The arguments of one `Notification::BeginExecuteNotification` call;
`author` and `text` default to the empty string. -/
structure ExecCall where
  notification : Nat
  type : NotificationType
  cr : Option CheckResult
  force : Bool
  reminder : Bool
  author : String
  text : String
deriving DecidableEq

/-- A task handed to `Utility::QueueAsyncCallback`: the bound arguments of
`SendMessageHelper`. -/
structure AsyncCallback where
  notification : Nat
  type : NotificationType
  reminder : Bool
deriving DecidableEq

/-- The store of notification objects, by identity. -/
abbrev Objects := Nat → Notification

/-- The effect of the external `BeginExecuteNotification` on the notification
objects. -/
abbrev ExecEffect := ExecCall → Objects → Objects

/-- The component's members, the objects it reads, and the record of its
outbound calls. -/
structure State where
  objects : Objects
  /-- Result of `Zone::GetLocalZone()`. -/
  localZone : Option Nat
  m_Stopped : Bool
  m_IdleNotifications : NotificationSet
  m_PendingNotifications : NotificationSet
  /-- the `BeginExecuteNotification` calls made so far, oldest first -/
  calls : List ExecCall
  /-- the tasks submitted with `QueueAsyncCallback` so far, oldest first -/
  queued : List AsyncCallback

/-- Method `NotificationComponent::GetNotificationScheduleInfo`. -/
def GetNotificationScheduleInfo (objects : Objects) (notification : Nat) :
    NotificationScheduleInfo :=
  { Object := notification, NextMessage := (objects notification).NextNotification }

/-- One call `notification->BeginExecuteNotification(...)`: recorded, and the
objects changed as the external effect says. -/
def BeginExecuteNotification (exec : ExecEffect) (s : State) (call : ExecCall) : State :=
  { s with objects := exec call s.objects, calls := s.calls ++ [call] }

/-- Setter `notification->SetNextNotification(value)`. -/
def SetNextNotification (objects : Objects) (notification : Nat) (value : ℚ) : Objects :=
  Function.update objects notification { objects notification with NextNotification := value }

/-! ## Event handlers -/

/-- Method `NotificationComponent::NextNotificationChangedHandler`; the origin
is not read. -/
def NextNotificationChangedHandler (s : State) (notification : Nat)
    (_origin : Option Nat) : State :=
  let idx := s.m_IdleNotifications
  let idx := match idx.find notification with
    | some _ => idx.erase notification
    | none => idx
  let nsi := GetNotificationScheduleInfo s.objects notification
  { s with m_IdleNotifications := idx.insert nsi }

/-- Body of the loop over `checkable->GetNotifications()` in
`StateChangeHandler`. -/
def StateChangeHandlerBody (exec : ExecEffect) (checkable : Checkable)
    (ntype : NotificationType) (s : State) (notification : Nat) : State :=
  let s := BeginExecuteNotification exec s
    ⟨notification, ntype, checkable.LastCheckResult, false, false, "", ""⟩
  if ntype ≠ NotificationType.NotificationRecovery then
    { s with m_IdleNotifications :=
        s.m_IdleNotifications.insert (GetNotificationScheduleInfo s.objects notification) }
  else
    match s.m_IdleNotifications.find notification with
    | none => s
    | some _ => { s with m_IdleNotifications := s.m_IdleNotifications.erase notification }

/-- Method `NotificationComponent::StateChangeHandler`. -/
def StateChangeHandler (exec : ExecEffect) (s : State) (checkable : Checkable)
    (cr : CheckResult) (type : StateType) : State :=
  if type = StateType.StateTypeHard then
    if !HardStateNotificationCheck checkable then s
    else
      let ntype := if cr.State = 0 then NotificationType.NotificationRecovery
                   else NotificationType.NotificationProblem
      checkable.Notifications.foldl (StateChangeHandlerBody exec checkable ntype) s
  else s

/-- Body of the loop in `FlappingChangedHandler`. -/
def FlappingChangedHandlerBody (exec : ExecEffect) (checkable : Checkable)
    (ntype : NotificationType) (s : State) (notification : Nat) : State :=
  let s := BeginExecuteNotification exec s
    ⟨notification, ntype, checkable.LastCheckResult, false, false, "", ""⟩
  if ntype ≠ NotificationType.NotificationFlappingEnd then
    { s with m_IdleNotifications :=
        s.m_IdleNotifications.insert (GetNotificationScheduleInfo s.objects notification) }
  else s

/-- Method `NotificationComponent::FlappingChangedHandler`. -/
def FlappingChangedHandler (exec : ExecEffect) (s : State) (checkable : Checkable) : State :=
  let ntype := if checkable.Flapping then NotificationType.NotificationFlappingStart
               else NotificationType.NotificationFlappingEnd
  checkable.Notifications.foldl (FlappingChangedHandlerBody exec checkable ntype) s

/-- Method `NotificationComponent::SetAcknowledgementHandler`. -/
def SetAcknowledgementHandler (exec : ExecEffect) (s : State) (checkable : Checkable)
    (author text : String) : State :=
  checkable.Notifications.foldl (fun s notification =>
    BeginExecuteNotification exec s
      ⟨notification, NotificationType.NotificationAcknowledgement,
        checkable.LastCheckResult, false, false, author, text⟩) s

/-- One pass through the body of the `for (;;)` loop of
`NotificationThreadProc` at clock reading `now`. A pass that waits (on the
condition variable, or for the first entry to become due) or that leaves the
loop because the component is stopped changes nothing. -/
def NotificationThreadProc (now : ℚ) (s : State) : State :=
  match s.m_IdleNotifications.first with
  | none => s
  | some nsi =>
    if s.m_Stopped then s
    else
      let wait := nsi.NextMessage - now
      if wait > 0 then s
      else
        let notification := nsi.Object
        let idle := s.m_IdleNotifications.erase notification
        let nsi := GetNotificationScheduleInfo s.objects notification
        { s with
          m_IdleNotifications := idle
          m_PendingNotifications := s.m_PendingNotifications.insert nsi
          queued := s.queued ++
            [⟨notification, NotificationType.NotificationProblem, true⟩] }

/-- Method `NotificationComponent::SendMessageHelper` at clock reading `now`. -/
def SendMessageHelper (exec : ExecEffect) (now : ℚ) (s : State) (notification : Nat)
    (type : NotificationType) (reminder : Bool) : State :=
  if !(s.objects notification).Active then
    let pending := match s.m_PendingNotifications.find notification with
      | some _ => s.m_PendingNotifications.erase notification
      | none => s.m_PendingNotifications
    let objects := SetNextNotification s.objects notification (now + 60)
    { s with
      objects := objects
      m_PendingNotifications := pending
      m_IdleNotifications :=
        s.m_IdleNotifications.insert (GetNotificationScheduleInfo objects notification) }
  else
    let s :=
      if HardStateNotificationCheck (s.objects notification).Checkable then
        BeginExecuteNotification exec s
          ⟨notification, type, (s.objects notification).Checkable.LastCheckResult,
            false, reminder, "", ""⟩
      else
        let value := (s.objects notification).NextNotification
          + (s.objects notification).NextNotification
        { s with objects := SetNextNotification s.objects notification value }
    match s.m_PendingNotifications.find notification with
    | some _ =>
      let pending := s.m_PendingNotifications.erase notification
      if (s.objects notification).Active then
        { s with
          m_PendingNotifications := pending
          m_IdleNotifications :=
            s.m_IdleNotifications.insert (GetNotificationScheduleInfo s.objects notification) }
      else { s with m_PendingNotifications := pending }
    | none => s

/-- A configuration object as `ObjectHandler` receives it: a notification, or
an object of another type. -/
inductive ConfigObject where
  | notification (id : Nat)
  | other (id : Nat)
deriving DecidableEq

/-- Cast `dynamic_pointer_cast<Notification>(object)`. -/
def dynamic_pointer_cast : ConfigObject → Option Nat
  | ConfigObject.notification id => some id
  | ConfigObject.other _ => none

/-- Method `NotificationComponent::ObjectHandler`. -/
def ObjectHandler (s : State) (object : ConfigObject) : State :=
  match dynamic_pointer_cast object with
  | none => s
  | some notification =>
    let zone := (s.objects notification).Zone
    let same_zone := zone.isNone || s.localZone == zone
    let checkable := (s.objects notification).Checkable
    let reachable := checkable.Reachable
    if checkable.StateType = StateType.StateTypeSoft then s
    else if (match checkable.HostService with
        | HostService.service state => state == ServiceOK
        | HostService.host state => state == HostUp) then s
    else if !reachable || checkable.InDowntime || checkable.Acknowledged
        || checkable.Flapping then s
    else if (s.objects notification).Active && !(s.objects notification).Paused
        && same_zone then
      match s.m_PendingNotifications.find notification with
      | some _ => s
      | none =>
        { s with m_IdleNotifications :=
            s.m_IdleNotifications.insert (GetNotificationScheduleInfo s.objects notification) }
    else
      { s with
        m_IdleNotifications := s.m_IdleNotifications.erase notification
        m_PendingNotifications := s.m_PendingNotifications.erase notification }

/-! ## The step relation of the component -/

/-- The events that drive the component: the five signal handlers, one pass of
the scheduler thread, and one run of the dispatch callback. -/
inductive Event where
  | stateChange (checkable : Checkable) (cr : CheckResult) (type : StateType)
  | flappingChanged (checkable : Checkable)
  | setAcknowledgement (checkable : Checkable) (author text : String)
  | object (object : ConfigObject)
  | nextNotificationChanged (notification : Nat) (origin : Option Nat)
  | notificationThread (now : ℚ)
  | sendMessage (now : ℚ) (notification : Nat) (type : NotificationType) (reminder : Bool)

/-- One step of the component: the handler the event is bound to. -/
def step (exec : ExecEffect) (s : State) : Event → State
  | Event.stateChange checkable cr type => StateChangeHandler exec s checkable cr type
  | Event.flappingChanged checkable => FlappingChangedHandler exec s checkable
  | Event.setAcknowledgement checkable author text =>
      SetAcknowledgementHandler exec s checkable author text
  | Event.object object => ObjectHandler s object
  | Event.nextNotificationChanged notification origin =>
      NextNotificationChangedHandler s notification origin
  | Event.notificationThread now => NotificationThreadProc now s
  | Event.sendMessage now notification type reminder =>
      SendMessageHelper exec now s notification type reminder

/-- No notification is in both `m_IdleNotifications` and
`m_PendingNotifications`. -/
def IdlePendingDisjoint (s : State) : Prop :=
  ∀ n ∈ s.m_IdleNotifications.ids, n ∉ s.m_PendingNotifications.ids

instance (s : State) : Decidable (IdlePendingDisjoint s) :=
  inferInstanceAs (Decidable (∀ n ∈ s.m_IdleNotifications.ids, n ∉ s.m_PendingNotifications.ids))

/-! ## Sample objects -/

/-- A reachable, unsuppressed, non-volatile service that went from a Hard
Critical state to a Hard Critical state, with notifications `1` and `2`. -/
def sampleCheckable : Checkable :=
  { StateType := StateType.StateTypeHard
    LastStateType := StateType.StateTypeHard
    StateRaw := 2
    LastStateRaw := 2
    Reachable := true
    InDowntime := false
    Acknowledged := false
    Flapping := false
    Volatile := false
    Notifications := [1, 2]
    LastCheckResult := some ⟨2⟩
    HostService := HostService.service 2 }

/-- A delivery call that changes no notification object. -/
def sampleExec : ExecEffect := fun _ objects => objects

/-- Every notification object is active, unpaused, without zone, attached to
`sampleCheckable`, and due at time `10`. -/
def sampleObjects : Objects := fun _ =>
  { Active := true, Paused := false, Zone := none,
    Checkable := sampleCheckable, NextNotification := 10 }

/-- The component right after start: both sets empty, nothing sent. -/
def sampleState : State :=
  { objects := sampleObjects, localZone := none, m_Stopped := false,
    m_IdleNotifications := NotificationSet.empty,
    m_PendingNotifications := NotificationSet.empty,
    calls := [], queued := [] }

/-- The Critical check result of `sampleCheckable`. -/
def sampleProblem : CheckResult := ⟨2⟩

/-- The OK check result. -/
def sampleRecovery : CheckResult := ⟨0⟩

/-- The sample service after its recovery: Hard OK, previously Hard Critical. -/
def sampleRecovered : Checkable :=
  { sampleCheckable with
    StateRaw := 0, LastCheckResult := some ⟨0⟩, HostService := HostService.service 0 }

/-- The sample service in a downtime. -/
def sampleInDowntime : Checkable := { sampleCheckable with InDowntime := true }

/-- The end state of scenario S1: both sample notifications idle, due at `10`. -/
def sampleScheduled : State :=
  { sampleState with m_IdleNotifications := ⟨[⟨1, 10⟩, ⟨2, 10⟩]⟩ }

/-- The sample notification objects after their next notification time was
moved to `20`. -/
def sampleLater : Objects := fun _ =>
  { Active := true, Paused := false, Zone := none,
    Checkable := sampleCheckable, NextNotification := 20 }

/-- The dispatch of notification `1` is in flight: it is in pending, not in
idle. -/
def sampleInFlight : State :=
  { sampleState with m_PendingNotifications := ⟨[⟨1, 10⟩]⟩ }

/-- Closed form of the eligibility predicate, worded as the claim about it:
reachable, not in downtime, not acknowledged, not flapping, and not (previous
raw state OK and (previous state type Soft, or volatile with current raw state
OK)). It is compared with `HardStateNotificationCheck`. -/
def HardStateNotificationCheckClosedForm (checkable : Checkable) : Bool :=
  checkable.Reachable && !checkable.InDowntime && !checkable.Acknowledged
    && !checkable.Flapping
    && !(decide (checkable.LastStateRaw = ServiceOK)
      && (decide (checkable.LastStateType = StateType.StateTypeSoft)
        || (checkable.Volatile && decide (checkable.StateRaw = ServiceOK))))

/-- Notification objects with the given active and paused flags, without zone,
attached to the given checkable, due at time `10`. -/
def sampleObjectsWith (active paused : Bool) (checkable : Checkable) : Objects := fun _ =>
  { Active := active, Paused := paused, Zone := none,
    Checkable := checkable, NextNotification := 10 }

/-- The sample service while it is flapping. -/
def sampleFlapping : Checkable := { sampleCheckable with Flapping := true }

/-- Notification `1` is in both sets, with an older time in pending: the
scheduler promoted it when it was due at `5`, and a Hard state change of its
checkable inserted it into idle again, now due at `10`, before the dispatch
ran. -/
def sampleInBoth : State :=
  { sampleState with
    m_IdleNotifications := ⟨[⟨1, 10⟩]⟩
    m_PendingNotifications := ⟨[⟨1, 5⟩]⟩ }

/-- The early returns of `ObjectHandler` on the checkable (Soft state type;
service OK or host Up; unreachable, in downtime, acknowledged or flapping), as
one test: true when none of them is taken. -/
def ObjectHandlerProceeds (checkable : Checkable) : Bool :=
  if checkable.StateType = StateType.StateTypeSoft then false
  else if (match checkable.HostService with
      | HostService.service state => state == ServiceOK
      | HostService.host state => state == HostUp) then false
  else if !checkable.Reachable || checkable.InDowntime || checkable.Acknowledged
      || checkable.Flapping then false
  else true

/-- A delivery call that moves the next notification time of the notification
it is called on to `99`. -/
def sampleExecReschedule : ExecEffect := fun call objects =>
  SetNextNotification objects call.notification 99

/-! ## Container lemmas -/

namespace NotificationSet

theorem mem_insertByTime (x e : NotificationScheduleInfo) (l : List NotificationScheduleInfo) :
    e ∈ insertByTime x l ↔ e = x ∨ e ∈ l := by
  induction l with
  | nil => simp [insertByTime]
  | cons y ys ih =>
    unfold insertByTime
    split
    · simp
    · simp only [List.mem_cons, ih]
      tauto

theorem insertByTime_perm (x : NotificationScheduleInfo) (l : List NotificationScheduleInfo) :
    (insertByTime x l).Perm (x :: l) := by
  induction l with
  | nil => simp [insertByTime]
  | cons y ys ih =>
    unfold insertByTime
    split
    · exact List.Perm.refl _
    · exact (List.Perm.cons y ih).trans (List.Perm.swap x y ys)

theorem insertByTime_sorted (x : NotificationScheduleInfo) (l : List NotificationScheduleInfo)
    (h : l.Pairwise (fun a b => a.NextMessage ≤ b.NextMessage)) :
    (insertByTime x l).Pairwise (fun a b => a.NextMessage ≤ b.NextMessage) := by
  induction l with
  | nil => simp [insertByTime]
  | cons y ys ih =>
    unfold insertByTime
    rw [List.pairwise_cons] at h
    split
    · rename_i hlt
      rw [List.pairwise_cons]
      refine ⟨?_, List.pairwise_cons.mpr h⟩
      intro a ha
      rcases List.mem_cons.mp ha with rfl | ha
      · exact le_of_lt hlt
      · exact le_trans (le_of_lt hlt) (h.1 a ha)
    · rename_i hlt
      rw [List.pairwise_cons]
      refine ⟨?_, ih h.2⟩
      intro a ha
      rcases (mem_insertByTime x a ys).mp ha with rfl | ha
      · exact not_lt.mp hlt
      · exact h.1 a ha

theorem find_eq_none_iff (s : NotificationSet) (key : Nat) :
    s.find key = none ↔ key ∉ s.ids := by
  simp [find, ids, List.find?_eq_none]

theorem find_eq_some_mem (s : NotificationSet) (key : Nat) (e : NotificationScheduleInfo)
    (h : s.find key = some e) : e ∈ s.entries ∧ e.Object = key := by
  unfold find at h
  have h1 := List.mem_of_find?_eq_some h
  have h2 := List.find?_some h
  exact ⟨h1, by simpa using h2⟩

theorem find_isSome_iff (s : NotificationSet) (key : Nat) :
    (s.find key).isSome = true ↔ key ∈ s.ids := by
  rw [← not_iff_not, ← find_eq_none_iff]
  cases s.find key <;> simp

theorem mem_insert (s : NotificationSet) (x e : NotificationScheduleInfo) :
    e ∈ (s.insert x).entries ↔ e ∈ s.entries ∨ (e = x ∧ x.Object ∉ s.ids) := by
  unfold insert
  cases h : s.find x.Object with
  | none =>
    have := (find_eq_none_iff s x.Object).mp h
    simp only [mem_insertByTime]
    tauto
  | some y =>
    have : x.Object ∈ s.ids := (find_isSome_iff s x.Object).mp (by simp [h])
    simp only
    tauto

theorem mem_ids_insert (s : NotificationSet) (x : NotificationScheduleInfo) (n : Nat) :
    n ∈ (s.insert x).ids ↔ n ∈ s.ids ∨ n = x.Object := by
  simp only [ids, List.mem_map]
  constructor
  · rintro ⟨e, he, rfl⟩
    rcases (mem_insert s x e).mp he with he | ⟨rfl, _⟩
    · exact Or.inl ⟨e, he, rfl⟩
    · exact Or.inr rfl
  · rintro (⟨e, he, rfl⟩ | rfl)
    · exact ⟨e, (mem_insert s x e).mpr (Or.inl he), rfl⟩
    · by_cases hx : x.Object ∈ s.ids
      · obtain ⟨e, he, hex⟩ := List.mem_map.mp hx
        exact ⟨e, (mem_insert s x e).mpr (Or.inl he), hex⟩
      · exact ⟨x, (mem_insert s x x).mpr (Or.inr ⟨rfl, hx⟩), rfl⟩

theorem mem_erase (s : NotificationSet) (key : Nat) (e : NotificationScheduleInfo) :
    e ∈ (s.erase key).entries ↔ e ∈ s.entries ∧ e.Object ≠ key := by
  simp [erase, List.mem_filter]

theorem mem_ids_erase (s : NotificationSet) (key n : Nat) :
    n ∈ (s.erase key).ids ↔ n ∈ s.ids ∧ n ≠ key := by
  simp only [ids, List.mem_map, mem_erase]
  constructor
  · rintro ⟨e, ⟨he, hk⟩, rfl⟩
    exact ⟨⟨e, he, rfl⟩, hk⟩
  · rintro ⟨⟨e, he, rfl⟩, hk⟩
    exact ⟨e, ⟨he, hk⟩, rfl⟩

theorem WF_empty : WF empty := by
  simp [WF, empty, ids]

theorem WF_insert (s : NotificationSet) (x : NotificationScheduleInfo) (h : s.WF) :
    (s.insert x).WF := by
  unfold insert
  cases hf : s.find x.Object with
  | some y => exact h
  | none =>
    have hx := (find_eq_none_iff s x.Object).mp hf
    refine ⟨?_, insertByTime_sorted x s.entries h.2⟩
    have hp : (insertByTime x s.entries).Perm (x :: s.entries) := insertByTime_perm x s.entries
    have hp2 := hp.map (fun e => e.Object)
    show ((insertByTime x s.entries).map (fun e => e.Object)).Nodup
    rw [hp2.nodup_iff, List.map_cons, List.nodup_cons]
    exact ⟨hx, h.1⟩

theorem WF_erase (s : NotificationSet) (key : Nat) (h : s.WF) : (s.erase key).WF := by
  refine ⟨?_, ?_⟩
  · show ((s.entries.filter (fun e => e.Object != key)).map (fun e => e.Object)).Nodup
    exact (List.filter_sublist _).map _ |>.nodup h.1
  · exact h.2.sublist (List.filter_sublist _)

end NotificationSet

/-! ## Eligibility: `HardStateNotificationCheck` -/

/-- C1: `HardStateNotificationCheck` returns false whenever the checkable is not
reachable, or in downtime, or acknowledged, or flapping, whatever its state
type, last state type, raw states and volatile flag are. -/
theorem HardStateNotificationCheck_suppressed (checkable : Checkable)
    (h : checkable.Reachable = false ∨ checkable.InDowntime = true
      ∨ checkable.Acknowledged = true ∨ checkable.Flapping = true) :
    HardStateNotificationCheck checkable = false := by
  unfold HardStateNotificationCheck
  rcases h with h | h | h | h <;> simp [h]

theorem HardStateNotificationCheck_suppressed_witness :
    HardStateNotificationCheck { sampleCheckable with InDowntime := true } = false :=
  HardStateNotificationCheck_suppressed { sampleCheckable with InDowntime := true }
    (Or.inr (Or.inl rfl))

/-- C2 (as stated, refuted): the sample checkable is reachable and unsuppressed,
no positive rule holds for it (last state type Hard, no recovery, not
volatile), and yet `HardStateNotificationCheck` returns true. -/
theorem HardStateNotificationCheck_positive_rules_not_needed :
    sampleCheckable.Reachable = true ∧ sampleCheckable.InDowntime = false
      ∧ sampleCheckable.Acknowledged = false ∧ sampleCheckable.Flapping = false
      ∧ sampleCheckable.Volatile = false
      ∧ sampleCheckable.LastStateType = StateType.StateTypeHard
      ∧ sampleCheckable.StateType = StateType.StateTypeHard
      ∧ sampleCheckable.LastStateRaw ≠ ServiceOK ∧ sampleCheckable.StateRaw ≠ ServiceOK
      ∧ ¬ (HardStateNotificationCheck sampleCheckable = true ↔
        ((sampleCheckable.LastStateType = StateType.StateTypeSoft
            ∨ (sampleCheckable.LastStateType = StateType.StateTypeHard
              ∧ sampleCheckable.StateType = StateType.StateTypeHard
              ∧ sampleCheckable.LastStateRaw ≠ ServiceOK
              ∧ sampleCheckable.StateRaw = ServiceOK)
            ∨ (sampleCheckable.Volatile = true
              ∧ sampleCheckable.StateType = StateType.StateTypeHard))
          ∧ ¬ (sampleCheckable.LastStateRaw = ServiceOK
              ∧ sampleCheckable.LastStateType = StateType.StateTypeSoft)
          ∧ ¬ (sampleCheckable.Volatile = true ∧ sampleCheckable.LastStateRaw = ServiceOK
              ∧ sampleCheckable.StateRaw = ServiceOK))) := by
  decide

/-- C2 (amended): for a checkable that is reachable, not in downtime, not
acknowledged and not flapping, `HardStateNotificationCheck` returns true if and
only if neither override holds (previous raw state OK with previous state type
Soft; volatile with previous and current raw state both OK). -/
theorem HardStateNotificationCheck_eligible_iff (checkable : Checkable)
    (hr : checkable.Reachable = true) (hd : checkable.InDowntime = false)
    (ha : checkable.Acknowledged = false) (hf : checkable.Flapping = false) :
    HardStateNotificationCheck checkable = true ↔
      (¬ (checkable.LastStateRaw = ServiceOK
          ∧ checkable.LastStateType = StateType.StateTypeSoft)
        ∧ ¬ (checkable.Volatile = true ∧ checkable.LastStateRaw = ServiceOK
          ∧ checkable.StateRaw = ServiceOK)) := by
  unfold HardStateNotificationCheck
  simp only [hr, hd, ha, hf]
  by_cases h1 : checkable.LastStateRaw = ServiceOK
      ∧ checkable.LastStateType = StateType.StateTypeSoft <;>
    by_cases h2 : checkable.Volatile = true ∧ checkable.LastStateRaw = ServiceOK
      ∧ checkable.StateRaw = ServiceOK <;>
    simp [h1, h2]

theorem HardStateNotificationCheck_eligible_iff_witness :
    HardStateNotificationCheck sampleCheckable = true ↔
      (¬ (sampleCheckable.LastStateRaw = ServiceOK
          ∧ sampleCheckable.LastStateType = StateType.StateTypeSoft)
        ∧ ¬ (sampleCheckable.Volatile = true ∧ sampleCheckable.LastStateRaw = ServiceOK
          ∧ sampleCheckable.StateRaw = ServiceOK)) :=
  HardStateNotificationCheck_eligible_iff sampleCheckable rfl rfl rfl rfl

/-- C3: the overrides win over the positive rules: if the previous raw state is
OK and the previous state type is Soft, or the checkable is volatile with
previous and current raw state both OK, `HardStateNotificationCheck` returns
false, also for a volatile checkable in a Hard state or a previous Soft state
type. -/
theorem HardStateNotificationCheck_override (checkable : Checkable)
    (h : (checkable.LastStateRaw = ServiceOK
          ∧ checkable.LastStateType = StateType.StateTypeSoft)
      ∨ (checkable.Volatile = true ∧ checkable.LastStateRaw = ServiceOK
          ∧ checkable.StateRaw = ServiceOK)) :
    HardStateNotificationCheck checkable = false := by
  unfold HardStateNotificationCheck
  rcases h with h | h
  · by_cases h2 : checkable.Volatile = true ∧ checkable.LastStateRaw = ServiceOK
      ∧ checkable.StateRaw = ServiceOK <;> simp [h, h2]
  · simp [h]

theorem HardStateNotificationCheck_override_witness :
    HardStateNotificationCheck
      { sampleCheckable with
        Volatile := true, LastStateType := StateType.StateTypeSoft, LastStateRaw := 0 }
      = false :=
  HardStateNotificationCheck_override
    { sampleCheckable with
      Volatile := true, LastStateType := StateType.StateTypeSoft, LastStateRaw := 0 }
    (Or.inl ⟨rfl, rfl⟩)

namespace NotificationSet

theorem nodup_ids_insert (s : NotificationSet) (x : NotificationScheduleInfo)
    (h : s.ids.Nodup) : (s.insert x).ids.Nodup := by
  unfold insert
  cases hf : s.find x.Object with
  | some y => exact h
  | none =>
    have hx := (find_eq_none_iff s x.Object).mp hf
    have hp2 := (insertByTime_perm x s.entries).map (fun e => e.Object)
    show ((insertByTime x s.entries).map (fun e => e.Object)).Nodup
    rw [hp2.nodup_iff, List.map_cons, List.nodup_cons]
    exact ⟨hx, h⟩

theorem insert_of_mem (s : NotificationSet) (x : NotificationScheduleInfo)
    (h : x.Object ∈ s.ids) : s.insert x = s := by
  unfold insert
  cases hf : s.find x.Object with
  | some y => rfl
  | none => exact absurd h ((find_eq_none_iff s x.Object).mp hf)

theorem erase_of_not_mem (s : NotificationSet) (key : Nat) (h : key ∉ s.ids) :
    s.erase key = s := by
  cases s with
  | mk entries =>
    simp only [erase, NotificationSet.mk.injEq, List.filter_eq_self]
    intro e he
    have : e.Object ≠ key := fun hk => h (List.mem_map.mpr ⟨e, he, hk⟩)
    simpa using this

end NotificationSet

/-! ## Lemmas on the loop of `StateChangeHandler` -/

/-- The delivery call `StateChangeHandler` makes for one notification. -/
theorem StateChangeHandlerBody_calls (exec : ExecEffect) (checkable : Checkable)
    (ntype : NotificationType) (s : State) (l : List Nat) :
    (l.foldl (StateChangeHandlerBody exec checkable ntype) s).calls
      = s.calls ++ l.map (fun n =>
          ⟨n, ntype, checkable.LastCheckResult, false, false, "", ""⟩)
    ∧ (l.foldl (StateChangeHandlerBody exec checkable ntype) s).m_PendingNotifications
      = s.m_PendingNotifications := by
  induction l generalizing s with
  | nil => simp
  | cons n l ih =>
    rw [List.foldl_cons]
    obtain ⟨h1, h2⟩ := ih (StateChangeHandlerBody exec checkable ntype s n)
    rw [h1, h2]
    unfold StateChangeHandlerBody BeginExecuteNotification
    constructor
    · split
      · simp
      · dsimp only
        cases s.m_IdleNotifications.find n <;> simp
    · split
      · rfl
      · dsimp only
        cases s.m_IdleNotifications.find n <;> rfl

theorem StateChangeHandlerBody_problem (exec : ExecEffect) (checkable : Checkable)
    (s : State) (n : Nat) :
    StateChangeHandlerBody exec checkable NotificationType.NotificationProblem s n
      = { objects := exec ⟨n, NotificationType.NotificationProblem,
            checkable.LastCheckResult, false, false, "", ""⟩ s.objects
          localZone := s.localZone
          m_Stopped := s.m_Stopped
          m_IdleNotifications := s.m_IdleNotifications.insert
            (GetNotificationScheduleInfo
              (exec ⟨n, NotificationType.NotificationProblem,
                checkable.LastCheckResult, false, false, "", ""⟩ s.objects) n)
          m_PendingNotifications := s.m_PendingNotifications
          calls := s.calls ++ [⟨n, NotificationType.NotificationProblem,
            checkable.LastCheckResult, false, false, "", ""⟩]
          queued := s.queued } := by
  simp [StateChangeHandlerBody, BeginExecuteNotification]

theorem StateChangeHandlerBody_recovery (exec : ExecEffect) (checkable : Checkable)
    (s : State) (n : Nat) :
    (StateChangeHandlerBody exec checkable NotificationType.NotificationRecovery s
        n).m_IdleNotifications = s.m_IdleNotifications.erase n := by
  unfold StateChangeHandlerBody BeginExecuteNotification
  simp only [ne_eq, not_true_eq_false, if_false]
  cases hf : s.m_IdleNotifications.find n with
  | none =>
    simp only
    exact (NotificationSet.erase_of_not_mem _ _
      ((NotificationSet.find_eq_none_iff _ _).mp hf)).symm
  | some y => rfl

/-! ## The step relation and the two sets -/

/-- C4 (code evaluated at the failing input): from the start state, a Hard
problem event puts notifications `1` and `2` in idle, the scheduler thread
promotes `1` to pending (the sets are disjoint), and a second Hard problem
event, arriving before the dispatch of `1` has run, inserts `1` into idle again:
`StateChangeHandler` does not look at `m_PendingNotifications`, and `1` ends up
in both sets. -/
theorem step_breaks_IdlePendingDisjoint :
    HardStateNotificationCheck sampleCheckable = true
      ∧ (step sampleExec
          (step sampleExec sampleState
            (Event.stateChange sampleCheckable sampleProblem StateType.StateTypeHard))
          (Event.notificationThread 10)).m_IdleNotifications.entries = [⟨2, 10⟩]
      ∧ (step sampleExec
          (step sampleExec sampleState
            (Event.stateChange sampleCheckable sampleProblem StateType.StateTypeHard))
          (Event.notificationThread 10)).m_PendingNotifications.entries = [⟨1, 10⟩]
      ∧ IdlePendingDisjoint
        (step sampleExec
          (step sampleExec sampleState
            (Event.stateChange sampleCheckable sampleProblem StateType.StateTypeHard))
          (Event.notificationThread 10))
      ∧ (step sampleExec
          (step sampleExec
            (step sampleExec sampleState
              (Event.stateChange sampleCheckable sampleProblem StateType.StateTypeHard))
            (Event.notificationThread 10))
          (Event.stateChange sampleCheckable sampleProblem
            StateType.StateTypeHard)).m_IdleNotifications.entries = [⟨2, 10⟩, ⟨1, 10⟩]
      ∧ (step sampleExec
          (step sampleExec
            (step sampleExec sampleState
              (Event.stateChange sampleCheckable sampleProblem StateType.StateTypeHard))
            (Event.notificationThread 10))
          (Event.stateChange sampleCheckable sampleProblem
            StateType.StateTypeHard)).m_PendingNotifications.entries = [⟨1, 10⟩]
      ∧ ¬ IdlePendingDisjoint
        (step sampleExec
          (step sampleExec
            (step sampleExec sampleState
              (Event.stateChange sampleCheckable sampleProblem StateType.StateTypeHard))
            (Event.notificationThread 10))
          (Event.stateChange sampleCheckable sampleProblem StateType.StateTypeHard)) := by
  simp [IdlePendingDisjoint, step, NotificationThreadProc, StateChangeHandler,
    StateChangeHandlerBody, sampleState, sampleCheckable, sampleProblem, sampleExec,
    sampleObjects, HardStateNotificationCheck, BeginExecuteNotification,
    NotificationSet.insert, NotificationSet.find, NotificationSet.first,
    NotificationSet.empty, NotificationSet.insertByTime, GetNotificationScheduleInfo,
    NotificationSet.erase, NotificationSet.ids]

theorem StateChangeHandler_problem_eq (exec : ExecEffect) (s : State) (checkable : Checkable)
    (cr : CheckResult) (hcheck : HardStateNotificationCheck checkable = true)
    (hcr : cr.State ≠ 0) :
    StateChangeHandler exec s checkable cr StateType.StateTypeHard
      = checkable.Notifications.foldl
          (StateChangeHandlerBody exec checkable NotificationType.NotificationProblem) s := by
  simp [StateChangeHandler, hcheck, hcr]

theorem StateChangeHandler_recovery_eq (exec : ExecEffect) (s : State) (checkable : Checkable)
    (cr : CheckResult) (hcheck : HardStateNotificationCheck checkable = true)
    (hcr : cr.State = 0) :
    StateChangeHandler exec s checkable cr StateType.StateTypeHard
      = checkable.Notifications.foldl
          (StateChangeHandlerBody exec checkable NotificationType.NotificationRecovery) s := by
  simp [StateChangeHandler, hcheck, hcr]

/-- Insertion never removes: an idle entry survives the problem loop. -/
theorem problem_loop_mono (exec : ExecEffect) (checkable : Checkable)
    (e : NotificationScheduleInfo) (l : List Nat) (s : State)
    (h : e ∈ s.m_IdleNotifications.entries) :
    e ∈ (l.foldl (StateChangeHandlerBody exec checkable NotificationType.NotificationProblem)
      s).m_IdleNotifications.entries := by
  induction l generalizing s with
  | nil => exact h
  | cons n l ih =>
    rw [List.foldl_cons]
    apply ih
    rw [StateChangeHandlerBody_problem]
    exact (NotificationSet.mem_insert _ _ _).mpr (Or.inl h)

/-- The identities in idle after the problem loop: the old ones and the
notifications of the loop. -/
theorem problem_loop_ids (exec : ExecEffect) (checkable : Checkable) (m : Nat)
    (l : List Nat) (s : State) :
    m ∈ (l.foldl (StateChangeHandlerBody exec checkable NotificationType.NotificationProblem)
      s).m_IdleNotifications.ids ↔ m ∈ s.m_IdleNotifications.ids ∨ m ∈ l := by
  induction l generalizing s with
  | nil => simp
  | cons n l ih =>
    rw [List.foldl_cons, ih, StateChangeHandlerBody_problem]
    simp only [NotificationSet.mem_ids_insert, GetNotificationScheduleInfo, List.mem_cons]
    tauto

theorem problem_loop_nodup (exec : ExecEffect) (checkable : Checkable)
    (l : List Nat) (s : State) (h : s.m_IdleNotifications.ids.Nodup) :
    (l.foldl (StateChangeHandlerBody exec checkable NotificationType.NotificationProblem)
      s).m_IdleNotifications.ids.Nodup := by
  induction l generalizing s with
  | nil => exact h
  | cons n l ih =>
    rw [List.foldl_cons]
    apply ih
    rw [StateChangeHandlerBody_problem]
    exact NotificationSet.nodup_ids_insert _ _ h

/-- A loop over notifications that all have an idle entry leaves idle as it
is: every insertion is refused. -/
theorem problem_loop_present (exec : ExecEffect) (checkable : Checkable)
    (l : List Nat) (s : State) (h : ∀ n ∈ l, n ∈ s.m_IdleNotifications.ids) :
    (l.foldl (StateChangeHandlerBody exec checkable NotificationType.NotificationProblem)
      s).m_IdleNotifications = s.m_IdleNotifications := by
  induction l generalizing s with
  | nil => rfl
  | cons n l ih =>
    have hn : (StateChangeHandlerBody exec checkable NotificationType.NotificationProblem
        s n).m_IdleNotifications = s.m_IdleNotifications := by
      rw [StateChangeHandlerBody_problem]
      exact NotificationSet.insert_of_mem _ _ (h n (List.mem_cons_self n l))
    rw [List.foldl_cons, ih, hn]
    intro k hk
    rw [hn]
    exact h k (List.mem_cons_of_mem n hk)

theorem problem_loop_entry (exec : ExecEffect) (checkable : Checkable) (N : Nat) (T0 : ℚ)
    (hexec : ∀ call objects,
      (exec call objects N).NextNotification = (objects N).NextNotification)
    (l : List Nat) (s : State) (hN : N ∈ l)
    (hT : (s.objects N).NextNotification = T0)
    (hidle : N ∉ s.m_IdleNotifications.ids) :
    ⟨N, T0⟩ ∈ (l.foldl
      (StateChangeHandlerBody exec checkable NotificationType.NotificationProblem)
      s).m_IdleNotifications.entries := by
  induction l generalizing s with
  | nil => simp at hN
  | cons n l ih =>
    rw [List.foldl_cons]
    by_cases hn : n = N
    · subst hn
      apply problem_loop_mono
      rw [StateChangeHandlerBody_problem]
      refine (NotificationSet.mem_insert _ _ _).mpr (Or.inr ⟨?_, hidle⟩)
      simp [GetNotificationScheduleInfo, hexec, hT]
    · apply ih
      · rcases List.mem_cons.mp hN with h | h
        · exact absurd h.symm hn
        · exact h
      · rw [StateChangeHandlerBody_problem]
        simp [hexec, hT]
      · rw [StateChangeHandlerBody_problem]
        simp only [NotificationSet.mem_ids_insert, GetNotificationScheduleInfo]
        rintro (h | h)
        · exact hidle h
        · exact hn h.symm

/-- In the calls a loop makes for distinct notifications, exactly one is for a
given notification of the loop. -/
theorem calls_filter_map (f : Nat → ExecCall) (hf : ∀ n, (f n).notification = n)
    (l : List Nat) (hl : l.Nodup) (n : Nat) (hn : n ∈ l) :
    (l.map f).filter (fun call => call.notification == n) = [f n] := by
  induction l with
  | nil => simp at hn
  | cons m l ih =>
    rw [List.nodup_cons] at hl
    rw [List.map_cons, List.filter_cons]
    by_cases hm : m = n
    · subst hm
      have : (l.map f).filter (fun call => call.notification == m) = [] := by
        rw [List.filter_eq_nil_iff]
        intro call hcall
        obtain ⟨k, hk, rfl⟩ := List.mem_map.mp hcall
        have : k ≠ m := fun h => hl.1 (h ▸ hk)
        simpa [hf] using this
      simp [hf, this]
    · have hn2 : n ∈ l := by
        rcases List.mem_cons.mp hn with h | h
        · exact absurd h.symm hm
        · exact h
      simp [hf, hm, ih hl.2 hn2]

/-- The recovery loop erases the idle entries of the notifications it visits
and keeps the others, in order. -/
theorem recovery_loop_idle (exec : ExecEffect) (checkable : Checkable)
    (l : List Nat) (s : State) :
    (l.foldl (StateChangeHandlerBody exec checkable NotificationType.NotificationRecovery)
      s).m_IdleNotifications.entries
      = s.m_IdleNotifications.entries.filter (fun e => decide (e.Object ∉ l)) := by
  induction l generalizing s with
  | nil => simp
  | cons n l ih =>
    rw [List.foldl_cons, ih, StateChangeHandlerBody_recovery]
    simp only [NotificationSet.erase, List.filter_filter]
    apply List.filter_congr
    intro e _
    simp only [List.mem_cons, not_or, bne_iff_ne, ne_eq, Bool.and_eq_true, decide_eq_true_eq,
      Bool.decide_and, Bool.decide_eq_true]
    by_cases h1 : e.Object = n <;> by_cases h2 : e.Object ∈ l <;> simp [h1, h2]

/-! ## `StateChangeHandler` -/

/-- The notification objects after the problem loop: the delivery calls
applied in order. -/
theorem problem_loop_objects (exec : ExecEffect) (checkable : Checkable)
    (l : List Nat) (s : State) :
    (l.foldl (StateChangeHandlerBody exec checkable NotificationType.NotificationProblem)
        s).objects
      = l.foldl (fun objects n =>
          exec ⟨n, NotificationType.NotificationProblem, checkable.LastCheckResult,
            false, false, "", ""⟩ objects) s.objects := by
  induction l generalizing s with
  | nil => rfl
  | cons n l ih => rw [List.foldl_cons, List.foldl_cons, ih, StateChangeHandlerBody_problem]

/-- The idle entry the problem loop makes for a notification without idle
entry carries the time read right after the delivery call for it. -/
theorem problem_loop_fresh_entry (exec : ExecEffect) (checkable : Checkable) (N : Nat)
    (before after : List Nat) (s : State) (hbefore : N ∉ before)
    (hidle : N ∉ s.m_IdleNotifications.ids) :
    ⟨N, (exec ⟨N, NotificationType.NotificationProblem, checkable.LastCheckResult,
          false, false, "", ""⟩
        (before.foldl (fun objects n =>
          exec ⟨n, NotificationType.NotificationProblem, checkable.LastCheckResult,
            false, false, "", ""⟩ objects) s.objects) N).NextNotification⟩
      ∈ ((before ++ N :: after).foldl
        (StateChangeHandlerBody exec checkable NotificationType.NotificationProblem)
        s).m_IdleNotifications.entries := by
  rw [List.foldl_append, List.foldl_cons]
  apply problem_loop_mono
  rw [StateChangeHandlerBody_problem, problem_loop_objects]
  refine (NotificationSet.mem_insert _ _ _).mpr (Or.inr ⟨rfl, ?_⟩)
  intro h
  rcases (problem_loop_ids exec checkable N before s).mp h with h | h
  · exact hidle h
  · exact hbefore h

/-- C5 (as stated, refuted): notification `1` is attached to the sample
checkable, has next notification time `10` and is in neither set; the delivery
call moves the next notification time of the notification it is called on to
`99`. After the Hard problem event, idle holds `(1, 99)` and `(2, 99)`, the
times read after the delivery calls, and not `(1, 10)`. -/
theorem StateChangeHandler_problem_entry_after_delivery :
    HardStateNotificationCheck sampleCheckable = true
      ∧ sampleProblem.State ≠ 0
      ∧ 1 ∈ sampleCheckable.Notifications
      ∧ (sampleState.objects 1).NextNotification = 10
      ∧ 1 ∉ sampleState.m_IdleNotifications.ids
      ∧ 1 ∉ sampleState.m_PendingNotifications.ids
      ∧ (StateChangeHandler sampleExecReschedule sampleState sampleCheckable sampleProblem
          StateType.StateTypeHard).m_IdleNotifications.entries = [⟨1, 99⟩, ⟨2, 99⟩]
      ∧ ⟨1, 10⟩ ∉ (StateChangeHandler sampleExecReschedule sampleState sampleCheckable
          sampleProblem StateType.StateTypeHard).m_IdleNotifications.entries := by
  decide

/-- C5 (amended): a Hard state change with a non-OK check result on a checkable
that passes `HardStateNotificationCheck` calls
`BeginExecuteNotification(Problem, checkable's last check result, false, false)`
once for each attached notification (the calls made by the handler are exactly
these, and exactly one of them is for each attached notification). For an
attached notification `N` that had no idle entry, idle afterwards contains
`{N, T}`, where `T` is the next notification time of `N` read right after the
delivery call for `N` (made after those for the notifications before it); `T`
is the earlier value `T0` when the delivery call leaves the next notification
time of `N` in place. -/
theorem StateChangeHandler_problem_schedules (exec : ExecEffect) (s : State)
    (checkable : Checkable) (cr : CheckResult) (N : Nat) (before after : List Nat)
    (hcheck : HardStateNotificationCheck checkable = true)
    (hcr : cr.State ≠ 0)
    (hnodup : checkable.Notifications.Nodup)
    (hN : checkable.Notifications = before ++ N :: after)
    (hidle : N ∉ s.m_IdleNotifications.ids) :
    (StateChangeHandler exec s checkable cr StateType.StateTypeHard).calls
        = s.calls ++ checkable.Notifications.map (fun n =>
            ⟨n, NotificationType.NotificationProblem, checkable.LastCheckResult,
              false, false, "", ""⟩)
      ∧ (∀ n ∈ checkable.Notifications,
          (((StateChangeHandler exec s checkable cr StateType.StateTypeHard).calls.drop
              s.calls.length).filter (fun call => call.notification == n))
            = [⟨n, NotificationType.NotificationProblem, checkable.LastCheckResult,
                false, false, "", ""⟩])
      ∧ ⟨N, (exec ⟨N, NotificationType.NotificationProblem, checkable.LastCheckResult,
              false, false, "", ""⟩
            (before.foldl (fun objects n =>
              exec ⟨n, NotificationType.NotificationProblem, checkable.LastCheckResult,
                false, false, "", ""⟩ objects) s.objects) N).NextNotification⟩
          ∈ (StateChangeHandler exec s checkable cr
            StateType.StateTypeHard).m_IdleNotifications.entries
      ∧ ((∀ call objects,
            (exec call objects N).NextNotification = (objects N).NextNotification) →
          ⟨N, (s.objects N).NextNotification⟩
            ∈ (StateChangeHandler exec s checkable cr
              StateType.StateTypeHard).m_IdleNotifications.entries) := by
  rw [StateChangeHandler_problem_eq exec s checkable cr hcheck hcr]
  have hcalls := (StateChangeHandlerBody_calls exec checkable
    NotificationType.NotificationProblem s checkable.Notifications).1
  have hbefore : N ∉ before := by
    have h := hnodup
    rw [hN] at h
    exact fun hmem => (List.nodup_append.mp h).2.2 hmem (List.mem_cons_self N after)
  have hmem : N ∈ checkable.Notifications := by
    rw [hN]
    exact List.mem_append_right _ (List.mem_cons_self N after)
  refine ⟨hcalls, ?_, ?_, ?_⟩
  · intro n hn
    rw [hcalls, List.drop_left]
    exact calls_filter_map _ (fun _ => rfl) _ hnodup n hn
  · rw [hN]
    exact problem_loop_fresh_entry exec checkable N before after s hbefore hidle
  · intro hexec
    exact problem_loop_entry exec checkable N _ hexec _ s hmem rfl hidle

theorem StateChangeHandler_problem_schedules_witness :
    sampleCheckable.Notifications = [] ++ 1 :: [2]
      ∧ (StateChangeHandler sampleExecReschedule sampleState sampleCheckable sampleProblem
          StateType.StateTypeHard).calls
        = sampleState.calls ++ sampleCheckable.Notifications.map (fun n =>
            ⟨n, NotificationType.NotificationProblem, sampleCheckable.LastCheckResult,
              false, false, "", ""⟩)
      ∧ ⟨1, (sampleExecReschedule ⟨1, NotificationType.NotificationProblem,
              sampleCheckable.LastCheckResult, false, false, "", ""⟩
            sampleState.objects 1).NextNotification⟩
          ∈ (StateChangeHandler sampleExecReschedule sampleState sampleCheckable
            sampleProblem StateType.StateTypeHard).m_IdleNotifications.entries
      ∧ (sampleExecReschedule ⟨1, NotificationType.NotificationProblem,
            sampleCheckable.LastCheckResult, false, false, "", ""⟩
          sampleState.objects 1).NextNotification = 99 :=
  ⟨rfl,
    (StateChangeHandler_problem_schedules sampleExecReschedule sampleState sampleCheckable
      sampleProblem 1 [] [2] (by decide) (by decide) (by decide) rfl (by decide)).1,
    (StateChangeHandler_problem_schedules sampleExecReschedule sampleState sampleCheckable
      sampleProblem 1 [] [2] (by decide) (by decide) (by decide) rfl (by decide)).2.2.1,
    by simp [sampleExecReschedule, SetNextNotification]⟩

/-- C6: a Hard state change whose check result has state OK, on a checkable that
passes `HardStateNotificationCheck`, calls
`BeginExecuteNotification(Recovery, ...)` for each attached notification;
afterwards idle holds no entry for an attached notification, the idle entries
of all other notifications are as before, and pending is unchanged. -/
theorem StateChangeHandler_recovery_evicts (exec : ExecEffect) (s : State)
    (checkable : Checkable) (cr : CheckResult)
    (hcheck : HardStateNotificationCheck checkable = true)
    (hcr : cr.State = 0) :
    (StateChangeHandler exec s checkable cr StateType.StateTypeHard).calls
        = s.calls ++ checkable.Notifications.map (fun n =>
            ⟨n, NotificationType.NotificationRecovery, checkable.LastCheckResult,
              false, false, "", ""⟩)
      ∧ (∀ n ∈ checkable.Notifications,
          n ∉ (StateChangeHandler exec s checkable cr
            StateType.StateTypeHard).m_IdleNotifications.ids)
      ∧ (StateChangeHandler exec s checkable cr
            StateType.StateTypeHard).m_IdleNotifications.entries
          = s.m_IdleNotifications.entries.filter
              (fun e => decide (e.Object ∉ checkable.Notifications))
      ∧ (StateChangeHandler exec s checkable cr
            StateType.StateTypeHard).m_PendingNotifications
          = s.m_PendingNotifications := by
  rw [StateChangeHandler_recovery_eq exec s checkable cr hcheck hcr]
  obtain ⟨hcalls, hpending⟩ := StateChangeHandlerBody_calls exec checkable
    NotificationType.NotificationRecovery s checkable.Notifications
  have hidle := recovery_loop_idle exec checkable checkable.Notifications s
  refine ⟨hcalls, ?_, hidle, hpending⟩
  intro n hn hmem
  unfold NotificationSet.ids at hmem
  rw [hidle] at hmem
  obtain ⟨e, he, rfl⟩ := List.mem_map.mp hmem
  have := (List.mem_filter.mp he).2
  simp only [decide_eq_true_eq] at this
  exact this hn

/-- C7: `StateChangeHandler` does nothing when the state type of the event is
Soft or the checkable fails `HardStateNotificationCheck`: no delivery call is
made and idle and pending (the whole component state) are unchanged. -/
theorem StateChangeHandler_suppressed (exec : ExecEffect) (s : State)
    (checkable : Checkable) (cr : CheckResult) (type : StateType)
    (h : type = StateType.StateTypeSoft ∨ HardStateNotificationCheck checkable = false) :
    StateChangeHandler exec s checkable cr type = s := by
  unfold StateChangeHandler
  rcases h with h | h
  · simp [h]
  · simp [h]

/-- C8: two consecutive identical Hard, non-OK state-change events for a
checkable that passes `HardStateNotificationCheck`: the identities in idle
after the second event are those after the first, no identity occurs twice
(given that none did at the start), and each attached notification has exactly
one idle entry. -/
theorem StateChangeHandler_twice (exec : ExecEffect) (s : State)
    (checkable : Checkable) (cr : CheckResult)
    (hcheck : HardStateNotificationCheck checkable = true)
    (hcr : cr.State ≠ 0)
    (hs : s.m_IdleNotifications.ids.Nodup) :
    (StateChangeHandler exec
        (StateChangeHandler exec s checkable cr StateType.StateTypeHard)
        checkable cr StateType.StateTypeHard).m_IdleNotifications.ids
        = (StateChangeHandler exec s checkable cr
            StateType.StateTypeHard).m_IdleNotifications.ids
      ∧ (StateChangeHandler exec
          (StateChangeHandler exec s checkable cr StateType.StateTypeHard)
          checkable cr StateType.StateTypeHard).m_IdleNotifications.ids.Nodup
      ∧ ∀ n ∈ checkable.Notifications,
          (StateChangeHandler exec
            (StateChangeHandler exec s checkable cr StateType.StateTypeHard)
            checkable cr StateType.StateTypeHard).m_IdleNotifications.ids.count n = 1 := by
  have h1 : ∀ n ∈ checkable.Notifications,
      n ∈ (StateChangeHandler exec s checkable cr
        StateType.StateTypeHard).m_IdleNotifications.ids := by
    intro n hn
    rw [StateChangeHandler_problem_eq exec s checkable cr hcheck hcr]
    exact (problem_loop_ids exec checkable n _ s).mpr (Or.inr hn)
  have h2 : (StateChangeHandler exec s checkable cr
      StateType.StateTypeHard).m_IdleNotifications.ids.Nodup := by
    rw [StateChangeHandler_problem_eq exec s checkable cr hcheck hcr]
    exact problem_loop_nodup exec checkable _ s hs
  have h3 : (StateChangeHandler exec
      (StateChangeHandler exec s checkable cr StateType.StateTypeHard)
      checkable cr StateType.StateTypeHard).m_IdleNotifications
      = (StateChangeHandler exec s checkable cr
        StateType.StateTypeHard).m_IdleNotifications := by
    rw [StateChangeHandler_problem_eq exec _ checkable cr hcheck hcr]
    exact problem_loop_present exec checkable _ _ h1
  rw [h3]
  exact ⟨rfl, h2, fun n hn => List.count_eq_one_of_mem h2 (h1 n hn)⟩

theorem StateChangeHandler_recovery_evicts_witness :
    (StateChangeHandler sampleExec sampleScheduled sampleRecovered sampleRecovery
        StateType.StateTypeHard).calls
        = sampleScheduled.calls ++ sampleRecovered.Notifications.map (fun n =>
            ⟨n, NotificationType.NotificationRecovery, sampleRecovered.LastCheckResult,
              false, false, "", ""⟩)
      ∧ (∀ n ∈ sampleRecovered.Notifications,
          n ∉ (StateChangeHandler sampleExec sampleScheduled sampleRecovered sampleRecovery
            StateType.StateTypeHard).m_IdleNotifications.ids)
      ∧ (StateChangeHandler sampleExec sampleScheduled sampleRecovered sampleRecovery
            StateType.StateTypeHard).m_IdleNotifications.entries
          = sampleScheduled.m_IdleNotifications.entries.filter
              (fun e => decide (e.Object ∉ sampleRecovered.Notifications))
      ∧ (StateChangeHandler sampleExec sampleScheduled sampleRecovered sampleRecovery
            StateType.StateTypeHard).m_PendingNotifications
          = sampleScheduled.m_PendingNotifications :=
  StateChangeHandler_recovery_evicts sampleExec sampleScheduled sampleRecovered
    sampleRecovery (by decide) (by decide)

theorem StateChangeHandler_suppressed_witness :
    HardStateNotificationCheck sampleInDowntime = false
      ∧ StateChangeHandler sampleExec sampleState sampleInDowntime sampleProblem
          StateType.StateTypeHard = sampleState :=
  ⟨by decide, StateChangeHandler_suppressed sampleExec sampleState sampleInDowntime
    sampleProblem StateType.StateTypeHard (Or.inr (by decide))⟩

theorem StateChangeHandler_twice_witness :
    (StateChangeHandler sampleExec
        (StateChangeHandler sampleExec sampleState sampleCheckable sampleProblem
          StateType.StateTypeHard)
        sampleCheckable sampleProblem StateType.StateTypeHard).m_IdleNotifications.ids
        = (StateChangeHandler sampleExec sampleState sampleCheckable sampleProblem
            StateType.StateTypeHard).m_IdleNotifications.ids
      ∧ (StateChangeHandler sampleExec
          (StateChangeHandler sampleExec sampleState sampleCheckable sampleProblem
            StateType.StateTypeHard)
          sampleCheckable sampleProblem StateType.StateTypeHard).m_IdleNotifications.ids.Nodup
      ∧ ∀ n ∈ sampleCheckable.Notifications,
          (StateChangeHandler sampleExec
            (StateChangeHandler sampleExec sampleState sampleCheckable sampleProblem
              StateType.StateTypeHard)
            sampleCheckable sampleProblem
            StateType.StateTypeHard).m_IdleNotifications.ids.count n = 1 :=
  StateChangeHandler_twice sampleExec sampleState sampleCheckable sampleProblem
    (by decide) (by decide) (by decide)

namespace NotificationSet

theorem filter_insertByTime_pos (p : NotificationScheduleInfo → Bool)
    (x : NotificationScheduleInfo) (l : List NotificationScheduleInfo)
    (hx : p x = true) (hl : ∀ e ∈ l, p e = false) :
    (insertByTime x l).filter p = [x] := by
  induction l with
  | nil => simp [insertByTime, hx]
  | cons y ys ih =>
    have hy : p y = false := hl y (List.mem_cons_self y ys)
    have hys : ∀ e ∈ ys, p e = false := fun e he => hl e (List.mem_cons_of_mem y he)
    have hnil : ys.filter p = [] := by
      rw [List.filter_eq_nil_iff]
      intro e he
      simp [hys e he]
    unfold insertByTime
    split
    · simp [List.filter_cons, hx, hy, hnil]
    · simp [List.filter_cons, hy, ih hys]

theorem filter_insertByTime_neg (p : NotificationScheduleInfo → Bool)
    (x : NotificationScheduleInfo) (l : List NotificationScheduleInfo)
    (hx : p x = false) :
    (insertByTime x l).filter p = l.filter p := by
  induction l with
  | nil => simp [insertByTime, hx]
  | cons y ys ih =>
    unfold insertByTime
    split
    · simp [List.filter_cons, hx]
    · simp [List.filter_cons, ih]

/-- Erasing a key and inserting an element with that key: the element is the
only one with the key, and the elements with other keys are as before. -/
theorem erase_insert (s : NotificationSet) (x : NotificationScheduleInfo) :
    ((s.erase x.Object).insert x).entries.filter (fun e => e.Object == x.Object) = [x]
      ∧ ((s.erase x.Object).insert x).entries.filter (fun e => e.Object != x.Object)
        = s.entries.filter (fun e => e.Object != x.Object) := by
  have hnot : x.Object ∉ (s.erase x.Object).ids := by
    rw [mem_ids_erase]
    exact fun h => h.2 rfl
  have hfind := (find_eq_none_iff _ _).mpr hnot
  unfold insert
  rw [hfind]
  constructor
  · apply filter_insertByTime_pos
    · simp
    · intro e he
      have := ((mem_erase s x.Object e).mp he).2
      simpa using this
  · show (insertByTime x (s.erase x.Object).entries).filter _ = _
    rw [filter_insertByTime_neg _ _ _ (by simp)]
    simp [erase, List.filter_filter]

end NotificationSet

/-! ## `NextNotificationChangedHandler` -/

theorem NextNotificationChangedHandler_idle (s : State) (notification : Nat)
    (origin : Option Nat) :
    (NextNotificationChangedHandler s notification origin).m_IdleNotifications
      = (s.m_IdleNotifications.erase notification).insert
          (GetNotificationScheduleInfo s.objects notification) := by
  unfold NextNotificationChangedHandler
  dsimp only
  cases hf : s.m_IdleNotifications.find notification with
  | none =>
    rw [NotificationSet.erase_of_not_mem _ _ ((NotificationSet.find_eq_none_iff _ _).mp hf)]
  | some y => rfl

theorem NextNotificationChangedHandler_step (s : State) (notification : Nat)
    (origin : Option Nat) :
    (NextNotificationChangedHandler s notification origin).m_IdleNotifications.entries.filter
          (fun e => e.Object == notification)
        = [⟨notification, (s.objects notification).NextNotification⟩]
      ∧ (NextNotificationChangedHandler s notification
            origin).m_IdleNotifications.entries.filter (fun e => e.Object != notification)
        = s.m_IdleNotifications.entries.filter (fun e => e.Object != notification)
      ∧ (NextNotificationChangedHandler s notification origin).m_PendingNotifications
        = s.m_PendingNotifications := by
  rw [NextNotificationChangedHandler_idle]
  have h := NotificationSet.erase_insert s.m_IdleNotifications
    (GetNotificationScheduleInfo s.objects notification)
  exact ⟨h.1, h.2, rfl⟩

/-- A call for another notification leaves the entries of `n` as they are. -/
theorem NextNotificationChangedHandler_other (s : State) (m n : Nat) (origin : Option Nat)
    (hmn : m ≠ n) :
    (NextNotificationChangedHandler s m origin).m_IdleNotifications.entries.filter
          (fun e => e.Object == n)
      = s.m_IdleNotifications.entries.filter (fun e => e.Object == n) := by
  have h := (NextNotificationChangedHandler_step s m origin).2.1
  have h2 := congrArg (List.filter (fun e => e.Object == n)) h
  simp only [List.filter_filter] at h2
  have hp : ∀ e : NotificationScheduleInfo,
      ((e.Object == n) && (e.Object != m)) = (e.Object == n) := by
    intro e
    by_cases he : e.Object = n
    · simp [he, hmn.symm]
    · simp [he]
  simpa [hp] using h2

/-- A sequence of calls, each seeing the notification objects as they are at
that moment, none of them for `n`: the entries of `n` are as before. -/
theorem NextNotificationChangedHandler_others (n : Nat) (post : List (Objects × Nat × Option Nat))
    (hpost : ∀ c ∈ post, c.2.1 ≠ n) (s : State) :
    (post.foldl (fun s c =>
        NextNotificationChangedHandler { s with objects := c.1 } c.2.1 c.2.2)
        s).m_IdleNotifications.entries.filter (fun e => e.Object == n)
      = s.m_IdleNotifications.entries.filter (fun e => e.Object == n) := by
  induction post generalizing s with
  | nil => rfl
  | cons c post ih =>
    rw [List.foldl_cons, ih (fun d hd => hpost d (List.mem_cons_of_mem c hd))]
    exact NextNotificationChangedHandler_other _ c.2.1 n c.2.2
      (hpost c (List.mem_cons_self c post))

/-- C9: after `NextNotificationChangedHandler(n, origin)` idle holds exactly one
entry for `n`, with the next notification time of `n` read during the call,
whether or not it held one before; the entries of other notifications and
pending are unchanged. Hence after any sequence of such calls (each seeing the
objects as they are at that moment) the idle entry for `n` carries the time read
by the most recent call for `n`. -/
theorem NextNotificationChangedHandler_reschedules (s : State) (n : Nat)
    (origin : Option Nat) (pre post : List (Objects × Nat × Option Nat)) (objects : Objects)
    (hpost : ∀ c ∈ post, c.2.1 ≠ n) :
    ((NextNotificationChangedHandler s n origin).m_IdleNotifications.entries.filter
          (fun e => e.Object == n)
        = [⟨n, (s.objects n).NextNotification⟩]
      ∧ (NextNotificationChangedHandler s n origin).m_IdleNotifications.entries.filter
          (fun e => e.Object != n)
        = s.m_IdleNotifications.entries.filter (fun e => e.Object != n)
      ∧ (NextNotificationChangedHandler s n origin).m_PendingNotifications
        = s.m_PendingNotifications)
    ∧ ((pre ++ (objects, n, origin) :: post).foldl (fun s c =>
          NextNotificationChangedHandler { s with objects := c.1 } c.2.1 c.2.2)
          s).m_IdleNotifications.entries.filter (fun e => e.Object == n)
        = [⟨n, (objects n).NextNotification⟩] := by
  refine ⟨NextNotificationChangedHandler_step s n origin, ?_⟩
  rw [List.foldl_append, List.foldl_cons, NextNotificationChangedHandler_others n post hpost]
  exact (NextNotificationChangedHandler_step _ n origin).1

theorem NextNotificationChangedHandler_reschedules_witness :
    ((NextNotificationChangedHandler sampleScheduled 1 none).m_IdleNotifications.entries.filter
          (fun e => e.Object == 1)
        = [⟨1, (sampleScheduled.objects 1).NextNotification⟩]
      ∧ (NextNotificationChangedHandler sampleScheduled 1 none).m_IdleNotifications.entries.filter
          (fun e => e.Object != 1)
        = sampleScheduled.m_IdleNotifications.entries.filter (fun e => e.Object != 1)
      ∧ (NextNotificationChangedHandler sampleScheduled 1 none).m_PendingNotifications
        = sampleScheduled.m_PendingNotifications)
    ∧ (([(sampleObjects, 1, none)] ++ (sampleLater, 1, none) :: [(sampleObjects, 2, none)]).foldl
          (fun (s : State) (c : Objects × Nat × Option Nat) =>
            NextNotificationChangedHandler { s with objects := c.1 } c.2.1 c.2.2)
          sampleScheduled).m_IdleNotifications.entries.filter
            (fun (e : NotificationScheduleInfo) => e.Object == 1)
        = [⟨1, (sampleLater 1).NextNotification⟩] :=
  NextNotificationChangedHandler_reschedules sampleScheduled 1 none
    [(sampleObjects, 1, none)] [(sampleObjects, 2, none)] sampleLater (by decide)

/-! ## `ObjectHandler` -/

/-- C10 (as stated, refuted): notification `1` is active, not paused, in the
same zone, its checkable is Hard Critical, reachable and unsuppressed, and
pending holds an entry for it; `ObjectHandler` returns without touching the
sets, so afterwards the notification is still in pending. -/
theorem ObjectHandler_keeps_pending :
    (sampleInFlight.objects 1).Active = true
      ∧ (sampleInFlight.objects 1).Paused = false
      ∧ (sampleInFlight.objects 1).Zone = none
      ∧ (sampleInFlight.objects 1).Checkable.StateType = StateType.StateTypeHard
      ∧ (sampleInFlight.objects 1).Checkable.HostService = HostService.service 2
      ∧ (sampleInFlight.objects 1).Checkable.Reachable = true
      ∧ (sampleInFlight.objects 1).Checkable.InDowntime = false
      ∧ (sampleInFlight.objects 1).Checkable.Acknowledged = false
      ∧ (sampleInFlight.objects 1).Checkable.Flapping = false
      ∧ 1 ∈ sampleInFlight.m_PendingNotifications.ids
      ∧ ¬ (1 ∉ (ObjectHandler sampleInFlight
              (ConfigObject.notification 1)).m_IdleNotifications.ids
          ∧ 1 ∉ (ObjectHandler sampleInFlight
              (ConfigObject.notification 1)).m_PendingNotifications.ids) := by
  decide

/-- C10 (amended): for a notification whose checkable is in a Hard state, not
OK/Up, reachable, not in downtime, not acknowledged and not flapping,
`ObjectHandler` has three outcomes. Active, not paused, same zone and no pending
entry: afterwards idle holds an entry for it and pending is unchanged. Active,
not paused, same zone and a pending entry present: nothing changes, the
notification stays in pending. Otherwise (inactive, paused or another zone):
afterwards the notification is in neither idle nor pending. -/
theorem ObjectHandler_outcomes (s : State) (n : Nat)
    (hhard : (s.objects n).Checkable.StateType = StateType.StateTypeHard)
    (hstate : match (s.objects n).Checkable.HostService with
      | HostService.service state => state ≠ ServiceOK
      | HostService.host state => state ≠ HostUp)
    (hr : (s.objects n).Checkable.Reachable = true)
    (hd : (s.objects n).Checkable.InDowntime = false)
    (ha : (s.objects n).Checkable.Acknowledged = false)
    (hf : (s.objects n).Checkable.Flapping = false) :
    (((s.objects n).Active = true ∧ (s.objects n).Paused = false
          ∧ ((s.objects n).Zone = none ∨ s.localZone = (s.objects n).Zone))
        → n ∉ s.m_PendingNotifications.ids
        → n ∈ (ObjectHandler s (ConfigObject.notification n)).m_IdleNotifications.ids
          ∧ (ObjectHandler s (ConfigObject.notification n)).m_PendingNotifications
            = s.m_PendingNotifications)
    ∧ (((s.objects n).Active = true ∧ (s.objects n).Paused = false
          ∧ ((s.objects n).Zone = none ∨ s.localZone = (s.objects n).Zone))
        → n ∈ s.m_PendingNotifications.ids
        → ObjectHandler s (ConfigObject.notification n) = s)
    ∧ (¬ ((s.objects n).Active = true ∧ (s.objects n).Paused = false
          ∧ ((s.objects n).Zone = none ∨ s.localZone = (s.objects n).Zone))
        → n ∉ (ObjectHandler s (ConfigObject.notification n)).m_IdleNotifications.ids
          ∧ n ∉ (ObjectHandler s
              (ConfigObject.notification n)).m_PendingNotifications.ids) := by
  have hstate2 : (match (s.objects n).Checkable.HostService with
      | HostService.service state => state == ServiceOK
      | HostService.host state => state == HostUp) = false := by
    cases hh : (s.objects n).Checkable.HostService with
    | host st => rw [hh] at hstate; simpa using hstate
    | service st => rw [hh] at hstate; simpa using hstate
  have hbody : ObjectHandler s (ConfigObject.notification n)
      = if ((s.objects n).Active && !(s.objects n).Paused
          && ((s.objects n).Zone.isNone || s.localZone == (s.objects n).Zone)) = true then
          match s.m_PendingNotifications.find n with
          | some _ => s
          | none =>
            { s with m_IdleNotifications :=
                s.m_IdleNotifications.insert (GetNotificationScheduleInfo s.objects n) }
        else
          { s with
            m_IdleNotifications := s.m_IdleNotifications.erase n
            m_PendingNotifications := s.m_PendingNotifications.erase n } := by
    simp only [ObjectHandler, dynamic_pointer_cast, hhard, hstate2, hr, hd, ha, hf]
    simp
  have hcond : (((s.objects n).Active && !(s.objects n).Paused
        && ((s.objects n).Zone.isNone || s.localZone == (s.objects n).Zone)) = true)
      ↔ ((s.objects n).Active = true ∧ (s.objects n).Paused = false
          ∧ ((s.objects n).Zone = none ∨ s.localZone = (s.objects n).Zone)) := by
    simp [Option.isNone_iff_eq_none, and_assoc]
  rw [hbody]
  refine ⟨?_, ?_, ?_⟩
  · intro hc hp
    rw [if_pos (hcond.mpr hc), (NotificationSet.find_eq_none_iff _ _).mpr hp]
    exact ⟨(NotificationSet.mem_ids_insert _ _ _).mpr (Or.inr rfl), rfl⟩
  · intro hc hp
    rw [if_pos (hcond.mpr hc)]
    cases hfind : s.m_PendingNotifications.find n with
    | none => exact absurd hp ((NotificationSet.find_eq_none_iff _ _).mp hfind)
    | some y => rfl
  · intro hc
    rw [if_neg (fun h => hc (hcond.mp h))]
    exact ⟨fun h => ((NotificationSet.mem_ids_erase _ _ _).mp h).2 rfl,
      fun h => ((NotificationSet.mem_ids_erase _ _ _).mp h).2 rfl⟩

theorem ObjectHandler_outcomes_witness :
    (((sampleInFlight.objects 1).Active = true ∧ (sampleInFlight.objects 1).Paused = false
          ∧ ((sampleInFlight.objects 1).Zone = none
            ∨ sampleInFlight.localZone = (sampleInFlight.objects 1).Zone))
        → 1 ∉ sampleInFlight.m_PendingNotifications.ids
        → 1 ∈ (ObjectHandler sampleInFlight
              (ConfigObject.notification 1)).m_IdleNotifications.ids
          ∧ (ObjectHandler sampleInFlight (ConfigObject.notification 1)).m_PendingNotifications
            = sampleInFlight.m_PendingNotifications)
    ∧ (((sampleInFlight.objects 1).Active = true ∧ (sampleInFlight.objects 1).Paused = false
          ∧ ((sampleInFlight.objects 1).Zone = none
            ∨ sampleInFlight.localZone = (sampleInFlight.objects 1).Zone))
        → 1 ∈ sampleInFlight.m_PendingNotifications.ids
        → ObjectHandler sampleInFlight (ConfigObject.notification 1) = sampleInFlight)
    ∧ (¬ ((sampleInFlight.objects 1).Active = true ∧ (sampleInFlight.objects 1).Paused = false
          ∧ ((sampleInFlight.objects 1).Zone = none
            ∨ sampleInFlight.localZone = (sampleInFlight.objects 1).Zone))
        → 1 ∉ (ObjectHandler sampleInFlight
              (ConfigObject.notification 1)).m_IdleNotifications.ids
          ∧ 1 ∉ (ObjectHandler sampleInFlight
              (ConfigObject.notification 1)).m_PendingNotifications.ids) :=
  ObjectHandler_outcomes sampleInFlight 1 rfl
    (by show (2 : ServiceState) ≠ ServiceOK; decide) rfl rfl rfl rfl

/-! ## `ObjectHandler`: activation after deactivation -/

theorem ObjectHandlerProceeds_iff (checkable : Checkable) :
    ObjectHandlerProceeds checkable = true ↔
      (checkable.StateType = StateType.StateTypeHard
        ∧ checkable.HostService ≠ HostService.service ServiceOK
        ∧ checkable.HostService ≠ HostService.host HostUp
        ∧ checkable.Reachable = true ∧ checkable.InDowntime = false
        ∧ checkable.Acknowledged = false ∧ checkable.Flapping = false) := by
  unfold ObjectHandlerProceeds
  cases hst : checkable.StateType <;> cases hhs : checkable.HostService <;>
    cases checkable.Reachable <;> cases checkable.InDowntime <;>
    cases checkable.Acknowledged <;> cases checkable.Flapping <;> simp

theorem ObjectHandler_early (s : State) (n : Nat)
    (h : ObjectHandlerProceeds (s.objects n).Checkable = false) :
    ObjectHandler s (ConfigObject.notification n) = s := by
  unfold ObjectHandlerProceeds at h
  simp only [ObjectHandler, dynamic_pointer_cast]
  split at h
  · rename_i h1; simp [h1]
  · rename_i h1
    split at h
    · rename_i h2; simp [h1, h2]
    · rename_i h2
      split at h
      · rename_i h3; simp only [h1, h2, h3, if_false, if_true]; simp
      · simp at h

theorem ObjectHandler_proceeds (s : State) (n : Nat)
    (h : ObjectHandlerProceeds (s.objects n).Checkable = true) :
    ObjectHandler s (ConfigObject.notification n)
      = if ((s.objects n).Active && !(s.objects n).Paused
          && ((s.objects n).Zone.isNone || s.localZone == (s.objects n).Zone)) = true then
          match s.m_PendingNotifications.find n with
          | some _ => s
          | none =>
            { s with m_IdleNotifications :=
                s.m_IdleNotifications.insert (GetNotificationScheduleInfo s.objects n) }
        else
          { s with
            m_IdleNotifications := s.m_IdleNotifications.erase n
            m_PendingNotifications := s.m_PendingNotifications.erase n } := by
  unfold ObjectHandlerProceeds at h
  simp only [ObjectHandler, dynamic_pointer_cast]
  split at h
  · simp at h
  · rename_i h1
    split at h
    · simp at h
    · rename_i h2
      split at h
      · simp at h
      · rename_i h3
        simp only [h1, h2, h3, if_false]
        simp

/-- With the notification inactive, `ObjectHandler` leaves it in neither set if
it proceeds past the early returns or the notification was in neither set. -/
theorem ObjectHandler_inactive (s : State) (n : Nat)
    (hin : (s.objects n).Active = false)
    (h : ObjectHandlerProceeds (s.objects n).Checkable = true
      ∨ (n ∉ s.m_IdleNotifications.ids ∧ n ∉ s.m_PendingNotifications.ids)) :
    n ∉ (ObjectHandler s (ConfigObject.notification n)).m_IdleNotifications.ids
      ∧ n ∉ (ObjectHandler s (ConfigObject.notification n)).m_PendingNotifications.ids
      ∧ (ObjectHandler s (ConfigObject.notification n)).localZone = s.localZone := by
  cases hp : ObjectHandlerProceeds (s.objects n).Checkable with
  | true =>
    rw [ObjectHandler_proceeds s n hp]
    simp only [hin, Bool.false_and, Bool.false_eq_true, if_false]
    exact ⟨fun h => ((NotificationSet.mem_ids_erase _ _ _).mp h).2 rfl,
      fun h => ((NotificationSet.mem_ids_erase _ _ _).mp h).2 rfl, trivial⟩
  | false =>
    rw [ObjectHandler_early s n hp]
    rcases h with h | h
    · rw [hp] at h; simp at h
    · exact ⟨h.1, h.2, rfl⟩

/-- C11 (as stated, refuted), three runs of `ObjectHandler` with notification
`1` inactive and then active. First: the checkable is in downtime at both
calls, both calls return early, and the idle entry of `1` is still there although
the preconditions fail. Second: the dispatch of `1` is in flight, the first
call returns early (downtime), the preconditions hold at the second call, which
returns at the pending check: no idle entry. Third: the preconditions hold at
both calls but `1` is paused at the second: no idle entry. -/
theorem ObjectHandler_reactivation_not_iff :
    (1 ∈ (ObjectHandler
            { (ObjectHandler
                { sampleScheduled with
                  objects := sampleObjectsWith false false sampleInDowntime }
                (ConfigObject.notification 1)) with
              objects := sampleObjectsWith true false sampleInDowntime }
            (ConfigObject.notification 1)).m_IdleNotifications.ids
        ∧ sampleInDowntime.InDowntime = true)
      ∧ (1 ∉ (ObjectHandler
            { (ObjectHandler
                { sampleInFlight with
                  objects := sampleObjectsWith false false sampleInDowntime }
                (ConfigObject.notification 1)) with
              objects := sampleObjectsWith true false sampleCheckable }
            (ConfigObject.notification 1)).m_IdleNotifications.ids
        ∧ ObjectHandlerProceeds sampleCheckable = true)
      ∧ (1 ∉ (ObjectHandler
            { (ObjectHandler
                { sampleState with
                  objects := sampleObjectsWith false false sampleCheckable }
                (ConfigObject.notification 1)) with
              objects := sampleObjectsWith true true sampleCheckable }
            (ConfigObject.notification 1)).m_IdleNotifications.ids
        ∧ sampleCheckable.StateType = StateType.StateTypeHard
        ∧ sampleCheckable.HostService = HostService.service 2
        ∧ sampleCheckable.Reachable = true ∧ sampleCheckable.InDowntime = false
        ∧ sampleCheckable.Acknowledged = false ∧ sampleCheckable.Flapping = false) := by
  decide

/-- C11 (amended): `ObjectHandler` is called with `N` inactive and then again
with `N` active, not paused and in the same zone; the first call gets past the
early returns (so it evicts `N`) or `N` was in neither set to begin with. Then
idle holds an entry for `N` afterwards if and only if, at the second call, the
checkable of `N` is in a Hard state, is not OK/Up, and is reachable, not in
downtime, not acknowledged and not flapping. -/
theorem ObjectHandler_reactivation (s : State) (first second : Objects) (N : Nat)
    (hin : (first N).Active = false)
    (hfirst : ((first N).Checkable.StateType = StateType.StateTypeHard
        ∧ (first N).Checkable.HostService ≠ HostService.service ServiceOK
        ∧ (first N).Checkable.HostService ≠ HostService.host HostUp
        ∧ (first N).Checkable.Reachable = true ∧ (first N).Checkable.InDowntime = false
        ∧ (first N).Checkable.Acknowledged = false ∧ (first N).Checkable.Flapping = false)
      ∨ (N ∉ s.m_IdleNotifications.ids ∧ N ∉ s.m_PendingNotifications.ids))
    (hact : (second N).Active = true) (hpaused : (second N).Paused = false)
    (hzone : (second N).Zone = none ∨ s.localZone = (second N).Zone) :
    N ∈ (ObjectHandler
          { (ObjectHandler { s with objects := first } (ConfigObject.notification N)) with
            objects := second }
          (ConfigObject.notification N)).m_IdleNotifications.ids
      ↔ ((second N).Checkable.StateType = StateType.StateTypeHard
        ∧ (second N).Checkable.HostService ≠ HostService.service ServiceOK
        ∧ (second N).Checkable.HostService ≠ HostService.host HostUp
        ∧ (second N).Checkable.Reachable = true ∧ (second N).Checkable.InDowntime = false
        ∧ (second N).Checkable.Acknowledged = false
        ∧ (second N).Checkable.Flapping = false) := by
  rw [← ObjectHandlerProceeds_iff] at hfirst ⊢
  obtain ⟨h1, h2, h3⟩ := ObjectHandler_inactive { s with objects := first } N hin hfirst
  generalize ObjectHandler { s with objects := first } (ConfigObject.notification N) = s1
    at h1 h2 h3
  have hcond : ((second N).Active && !(second N).Paused
      && ((second N).Zone.isNone || s1.localZone == (second N).Zone)) = true := by
    rw [h3]
    rcases hzone with hz | hz
    · simp [hact, hpaused, hz]
    · simp [hact, hpaused, hz]
  cases hp : ObjectHandlerProceeds (second N).Checkable with
  | true =>
    rw [ObjectHandler_proceeds _ N hp]
    simp only [hcond, if_true, (NotificationSet.find_eq_none_iff _ _).mpr h2]
    simp only [iff_true]
    exact (NotificationSet.mem_ids_insert _ _ _).mpr (Or.inr rfl)
  | false =>
    rw [ObjectHandler_early _ N hp]
    simpa using h1

theorem ObjectHandler_reactivation_witness :
    1 ∈ (ObjectHandler
          { (ObjectHandler
              { sampleScheduled with objects := sampleObjectsWith false false sampleCheckable }
              (ConfigObject.notification 1)) with
            objects := sampleObjectsWith true false sampleCheckable }
          (ConfigObject.notification 1)).m_IdleNotifications.ids
      ↔ ((sampleObjectsWith true false sampleCheckable 1).Checkable.StateType
          = StateType.StateTypeHard
        ∧ (sampleObjectsWith true false sampleCheckable 1).Checkable.HostService
          ≠ HostService.service ServiceOK
        ∧ (sampleObjectsWith true false sampleCheckable 1).Checkable.HostService
          ≠ HostService.host HostUp
        ∧ (sampleObjectsWith true false sampleCheckable 1).Checkable.Reachable = true
        ∧ (sampleObjectsWith true false sampleCheckable 1).Checkable.InDowntime = false
        ∧ (sampleObjectsWith true false sampleCheckable 1).Checkable.Acknowledged = false
        ∧ (sampleObjectsWith true false sampleCheckable 1).Checkable.Flapping = false) :=
  ObjectHandler_reactivation sampleScheduled
    (sampleObjectsWith false false sampleCheckable)
    (sampleObjectsWith true false sampleCheckable) 1 rfl
    (Or.inl (by decide)) rfl rfl (Or.inl rfl)

/-! ## `SendMessageHelper` -/

theorem SendMessageHelper_inactive (exec : ExecEffect) (now : ℚ) (s : State) (n : Nat)
    (type : NotificationType) (reminder : Bool) (h : (s.objects n).Active = false) :
    SendMessageHelper exec now s n type reminder
      = { s with
          objects := SetNextNotification s.objects n (now + 60)
          m_PendingNotifications := s.m_PendingNotifications.erase n
          m_IdleNotifications := s.m_IdleNotifications.insert
            (GetNotificationScheduleInfo (SetNextNotification s.objects n (now + 60)) n) } := by
  unfold SendMessageHelper
  simp only [h, Bool.not_false, if_true]
  cases hf : s.m_PendingNotifications.find n with
  | none =>
    simp only
    rw [NotificationSet.erase_of_not_mem _ _ ((NotificationSet.find_eq_none_iff _ _).mp hf)]
  | some y => rfl

/-- The state after the dispatch step of `SendMessageHelper` for an active
notification: the delivery call, or the advance of the next notification
time. -/
theorem SendMessageHelper_active (exec : ExecEffect) (now : ℚ) (s : State) (n : Nat)
    (type : NotificationType) (reminder : Bool) (h : (s.objects n).Active = true)
    (hp : n ∈ s.m_PendingNotifications.ids) (objects : Objects) (calls : List ExecCall)
    (hobjects : objects =
      if HardStateNotificationCheck (s.objects n).Checkable then
        exec ⟨n, type, (s.objects n).Checkable.LastCheckResult, false, reminder, "", ""⟩
          s.objects
      else SetNextNotification s.objects n
        ((s.objects n).NextNotification + (s.objects n).NextNotification))
    (hcalls : calls =
      if HardStateNotificationCheck (s.objects n).Checkable then
        s.calls ++ [⟨n, type, (s.objects n).Checkable.LastCheckResult, false, reminder,
          "", ""⟩]
      else s.calls) :
    SendMessageHelper exec now s n type reminder
      = { s with
          objects := objects
          calls := calls
          m_PendingNotifications := s.m_PendingNotifications.erase n
          m_IdleNotifications :=
            if (objects n).Active then
              s.m_IdleNotifications.insert (GetNotificationScheduleInfo objects n)
            else s.m_IdleNotifications } := by
  obtain ⟨y, hy⟩ := Option.isSome_iff_exists.mp
    ((NotificationSet.find_isSome_iff _ _).mpr hp)
  subst hobjects hcalls
  unfold SendMessageHelper
  simp only [h, Bool.not_true, Bool.false_eq_true, if_false]
  by_cases hc : HardStateNotificationCheck (s.objects n).Checkable = true
  · simp only [hc, if_true, BeginExecuteNotification, hy]
    split <;> rfl
  · simp only [hc, Bool.false_eq_true, if_false, hy]
    split <;> rfl

/-- C12: if `N` has no idle entry and is not active when `SendMessageHelper`
runs, no delivery call is made, `N` is removed from pending (where the
scheduler had put it), its next notification time is set to `now + 60`, and idle
afterwards contains `(N, now + 60)` as its only entry for `N`: the notification
is rescheduled, not dropped. -/
theorem SendMessageHelper_inactive_reschedules (exec : ExecEffect) (now : ℚ) (s : State)
    (N : Nat) (type : NotificationType) (reminder : Bool)
    (hidle : N ∉ s.m_IdleNotifications.ids)
    (hin : (s.objects N).Active = false) :
    (SendMessageHelper exec now s N type reminder).calls = s.calls
      ∧ N ∉ (SendMessageHelper exec now s N type reminder).m_PendingNotifications.ids
      ∧ ((SendMessageHelper exec now s N type reminder).objects N).NextNotification
        = now + 60
      ∧ ⟨N, now + 60⟩
        ∈ (SendMessageHelper exec now s N type reminder).m_IdleNotifications.entries
      ∧ (∀ e ∈ (SendMessageHelper exec now s N type reminder).m_IdleNotifications.entries,
          e.Object = N → e = ⟨N, now + 60⟩) := by
  rw [SendMessageHelper_inactive exec now s N type reminder hin]
  have hnsi : GetNotificationScheduleInfo (SetNextNotification s.objects N (now + 60)) N
      = ⟨N, now + 60⟩ := by
    simp [GetNotificationScheduleInfo, SetNextNotification]
  refine ⟨rfl, fun h => ((NotificationSet.mem_ids_erase _ _ _).mp h).2 rfl, ?_, ?_, ?_⟩
  · simp [SetNextNotification]
  · simp only [hnsi]
    exact (NotificationSet.mem_insert _ _ _).mpr (Or.inr ⟨rfl, hidle⟩)
  · intro e he heN
    simp only [hnsi] at he
    rcases (NotificationSet.mem_insert _ _ _).mp he with h | h
    · exact absurd (List.mem_map.mpr ⟨e, h, heN⟩) hidle
    · exact h.1

theorem SendMessageHelper_inactive_reschedules_witness :
    (SendMessageHelper sampleExec 12
        { sampleInFlight with objects := sampleObjectsWith false false sampleCheckable }
        1 NotificationType.NotificationProblem true).calls = []
      ∧ 1 ∉ (SendMessageHelper sampleExec 12
        { sampleInFlight with objects := sampleObjectsWith false false sampleCheckable }
        1 NotificationType.NotificationProblem true).m_PendingNotifications.ids
      ∧ ((SendMessageHelper sampleExec 12
        { sampleInFlight with objects := sampleObjectsWith false false sampleCheckable }
        1 NotificationType.NotificationProblem true).objects 1).NextNotification = 12 + 60
      ∧ ⟨1, 12 + 60⟩ ∈ (SendMessageHelper sampleExec 12
        { sampleInFlight with objects := sampleObjectsWith false false sampleCheckable }
        1 NotificationType.NotificationProblem true).m_IdleNotifications.entries
      ∧ (∀ e ∈ (SendMessageHelper sampleExec 12
        { sampleInFlight with objects := sampleObjectsWith false false sampleCheckable }
        1 NotificationType.NotificationProblem true).m_IdleNotifications.entries,
          e.Object = 1 → e = ⟨1, 12 + 60⟩) :=
  SendMessageHelper_inactive_reschedules sampleExec 12
    { sampleInFlight with objects := sampleObjectsWith false false sampleCheckable }
    1 NotificationType.NotificationProblem true (by decide) rfl

/-- C13: `N` is in pending, not in idle, and active when `SendMessageHelper`
starts. Afterwards `N` is not in pending; if it is still active at the final
step, idle holds `N` with the next notification time observed after the
dispatch, as its only entry for `N`; if it is no longer active it is in neither
set. When the checkable passes `HardStateNotificationCheck`, exactly one
delivery call is made, with the given type, the last check result of the
checkable, forced false and the given reminder flag. -/
theorem SendMessageHelper_active_readmits (exec : ExecEffect) (now : ℚ) (s : State)
    (N : Nat) (type : NotificationType) (reminder : Bool)
    (hpending : N ∈ s.m_PendingNotifications.ids)
    (hidle : N ∉ s.m_IdleNotifications.ids)
    (hact : (s.objects N).Active = true) :
    N ∉ (SendMessageHelper exec now s N type reminder).m_PendingNotifications.ids
      ∧ (((SendMessageHelper exec now s N type reminder).objects N).Active = true →
          (SendMessageHelper exec now s N type reminder).m_IdleNotifications.entries.filter
              (fun e => e.Object == N)
            = [⟨N, ((SendMessageHelper exec now s N type reminder).objects
                N).NextNotification⟩])
      ∧ (((SendMessageHelper exec now s N type reminder).objects N).Active = false →
          N ∉ (SendMessageHelper exec now s N type reminder).m_IdleNotifications.ids
            ∧ N ∉ (SendMessageHelper exec now s N type
                reminder).m_PendingNotifications.ids)
      ∧ (HardStateNotificationCheck (s.objects N).Checkable = true →
          (SendMessageHelper exec now s N type reminder).calls
            = s.calls ++ [⟨N, type, (s.objects N).Checkable.LastCheckResult, false,
                reminder, "", ""⟩]) := by
  obtain ⟨objects, hobjects⟩ : ∃ objects : Objects, objects =
      if HardStateNotificationCheck (s.objects N).Checkable then
        exec ⟨N, type, (s.objects N).Checkable.LastCheckResult, false, reminder, "", ""⟩
          s.objects
      else SetNextNotification s.objects N
        ((s.objects N).NextNotification + (s.objects N).NextNotification) := ⟨_, rfl⟩
  rw [SendMessageHelper_active exec now s N type reminder hact hpending objects _
    hobjects rfl]
  have hnp : N ∉ (s.m_PendingNotifications.erase N).ids :=
    fun h => ((NotificationSet.mem_ids_erase _ _ _).mp h).2 rfl
  refine ⟨hnp, ?_, ?_, ?_⟩
  · intro ha
    simp only at ha
    simp only [ha, if_true]
    have h := (NotificationSet.erase_insert s.m_IdleNotifications
      (GetNotificationScheduleInfo objects N)).1
    rw [show (GetNotificationScheduleInfo objects N).Object = N from rfl,
      NotificationSet.erase_of_not_mem _ _ hidle] at h
    exact h
  · intro ha
    simp only at ha
    simp only [ha, Bool.false_eq_true, if_false]
    exact ⟨hidle, hnp⟩
  · intro hc
    simp [hc]

theorem SendMessageHelper_active_readmits_witness :
    1 ∉ (SendMessageHelper sampleExec 12 sampleInFlight 1
        NotificationType.NotificationProblem true).m_PendingNotifications.ids
      ∧ (((SendMessageHelper sampleExec 12 sampleInFlight 1
            NotificationType.NotificationProblem true).objects 1).Active = true →
          (SendMessageHelper sampleExec 12 sampleInFlight 1
            NotificationType.NotificationProblem true).m_IdleNotifications.entries.filter
              (fun e => e.Object == 1)
            = [⟨1, ((SendMessageHelper sampleExec 12 sampleInFlight 1
                NotificationType.NotificationProblem true).objects 1).NextNotification⟩])
      ∧ (((SendMessageHelper sampleExec 12 sampleInFlight 1
            NotificationType.NotificationProblem true).objects 1).Active = false →
          1 ∉ (SendMessageHelper sampleExec 12 sampleInFlight 1
              NotificationType.NotificationProblem true).m_IdleNotifications.ids
            ∧ 1 ∉ (SendMessageHelper sampleExec 12 sampleInFlight 1
              NotificationType.NotificationProblem true).m_PendingNotifications.ids)
      ∧ (HardStateNotificationCheck (sampleInFlight.objects 1).Checkable = true →
          (SendMessageHelper sampleExec 12 sampleInFlight 1
              NotificationType.NotificationProblem true).calls
            = sampleInFlight.calls ++ [⟨1, NotificationType.NotificationProblem,
                (sampleInFlight.objects 1).Checkable.LastCheckResult, false, true,
                "", ""⟩]) :=
  SendMessageHelper_active_readmits sampleExec 12 sampleInFlight 1
    NotificationType.NotificationProblem true (by decide) (by decide) rfl

/-- C14 (code evaluated at the failing input): notification `1` is active, in
pending, due at `10`, and its checkable is in downtime, so
`HardStateNotificationCheck` fails. `SendMessageHelper` at `now = 4` makes no
delivery call and sets the next notification time to `10 + 10 = 20`, the
timestamp added to itself, where advancing by the remaining interval gives
`10 + (10 - 4) = 16`. -/
theorem SendMessageHelper_ineligible_doubles :
    HardStateNotificationCheck
        (({ sampleInFlight with
            objects := sampleObjectsWith true false sampleInDowntime } : State).objects
          1).Checkable = false
      ∧ (({ sampleInFlight with
            objects := sampleObjectsWith true false sampleInDowntime } : State).objects
          1).Active = true
      ∧ (({ sampleInFlight with
            objects := sampleObjectsWith true false sampleInDowntime } : State).objects
          1).NextNotification = 10
      ∧ (SendMessageHelper sampleExec 4
          { sampleInFlight with objects := sampleObjectsWith true false sampleInDowntime }
          1 NotificationType.NotificationProblem true).calls = []
      ∧ ((SendMessageHelper sampleExec 4
          { sampleInFlight with objects := sampleObjectsWith true false sampleInDowntime }
          1 NotificationType.NotificationProblem true).objects 1).NextNotification = 20
      ∧ (20 : ℚ) ≠ 10 + (10 - 4) := by
  refine ⟨by decide, rfl, rfl, ?_, ?_, by norm_num⟩
  · simp [SendMessageHelper, sampleInFlight, sampleState, sampleObjectsWith,
      sampleInDowntime, sampleCheckable, HardStateNotificationCheck,
      NotificationSet.find, SetNextNotification]
  · simp [SendMessageHelper, sampleInFlight, sampleState, sampleObjectsWith,
      sampleInDowntime, sampleCheckable, HardStateNotificationCheck,
      NotificationSet.find, SetNextNotification]
    norm_num

/-- What the non-eligible branch of `SendMessageHelper` does in general: no
delivery call, and the next notification time becomes the old one added to
itself. -/
theorem SendMessageHelper_ineligible (exec : ExecEffect) (now : ℚ) (s : State)
    (n : Nat) (type : NotificationType) (reminder : Bool)
    (hact : (s.objects n).Active = true)
    (hcheck : HardStateNotificationCheck (s.objects n).Checkable = false) :
    (SendMessageHelper exec now s n type reminder).calls = s.calls
      ∧ ((SendMessageHelper exec now s n type reminder).objects n).NextNotification
        = (s.objects n).NextNotification + (s.objects n).NextNotification := by
  unfold SendMessageHelper
  simp only [hact, hcheck, Bool.not_true, Bool.false_eq_true, if_false]
  split
  · split <;> simp [SetNextNotification]
  · simp [SetNextNotification]

/-! ## `FlappingChangedHandler` and `SetAcknowledgementHandler` -/

theorem FlappingChangedHandlerBody_calls (exec : ExecEffect) (checkable : Checkable)
    (ntype : NotificationType) (s : State) (l : List Nat) :
    (l.foldl (FlappingChangedHandlerBody exec checkable ntype) s).calls
      = s.calls ++ l.map (fun n =>
          ⟨n, ntype, checkable.LastCheckResult, false, false, "", ""⟩)
    ∧ (l.foldl (FlappingChangedHandlerBody exec checkable ntype) s).m_PendingNotifications
      = s.m_PendingNotifications := by
  induction l generalizing s with
  | nil => simp
  | cons n l ih =>
    rw [List.foldl_cons]
    obtain ⟨h1, h2⟩ := ih (FlappingChangedHandlerBody exec checkable ntype s n)
    rw [h1, h2]
    unfold FlappingChangedHandlerBody BeginExecuteNotification
    constructor
    · split <;> simp
    · split <;> rfl

theorem flapping_end_loop (exec : ExecEffect) (checkable : Checkable) (s : State)
    (l : List Nat) :
    (l.foldl (FlappingChangedHandlerBody exec checkable
      NotificationType.NotificationFlappingEnd) s).m_IdleNotifications
      = s.m_IdleNotifications := by
  induction l generalizing s with
  | nil => rfl
  | cons n l ih =>
    rw [List.foldl_cons, ih]
    simp [FlappingChangedHandlerBody, BeginExecuteNotification]

theorem flapping_start_loop_ids (exec : ExecEffect) (checkable : Checkable) (m : Nat)
    (l : List Nat) (s : State) :
    m ∈ (l.foldl (FlappingChangedHandlerBody exec checkable
        NotificationType.NotificationFlappingStart) s).m_IdleNotifications.ids
      ↔ m ∈ s.m_IdleNotifications.ids ∨ m ∈ l := by
  induction l generalizing s with
  | nil => simp
  | cons n l ih =>
    rw [List.foldl_cons, ih]
    simp only [FlappingChangedHandlerBody, BeginExecuteNotification, ne_eq,
      reduceCtorEq, not_false_eq_true, if_true, NotificationSet.mem_ids_insert,
      GetNotificationScheduleInfo, List.mem_cons]
    tauto

theorem SetAcknowledgementHandler_loop (exec : ExecEffect) (checkable : Checkable)
    (author text : String) (s : State) (l : List Nat) :
    (l.foldl (fun s notification =>
        BeginExecuteNotification exec s
          ⟨notification, NotificationType.NotificationAcknowledgement,
            checkable.LastCheckResult, false, false, author, text⟩) s).calls
      = s.calls ++ l.map (fun n =>
          ⟨n, NotificationType.NotificationAcknowledgement, checkable.LastCheckResult,
            false, false, author, text⟩)
    ∧ (l.foldl (fun s notification =>
        BeginExecuteNotification exec s
          ⟨notification, NotificationType.NotificationAcknowledgement,
            checkable.LastCheckResult, false, false, author, text⟩) s).m_IdleNotifications
      = s.m_IdleNotifications
    ∧ (l.foldl (fun s notification =>
        BeginExecuteNotification exec s
          ⟨notification, NotificationType.NotificationAcknowledgement,
            checkable.LastCheckResult, false, false, author, text⟩) s).m_PendingNotifications
      = s.m_PendingNotifications := by
  induction l generalizing s with
  | nil => simp
  | cons n l ih =>
    rw [List.foldl_cons]
    obtain ⟨h1, h2, h3⟩ := ih (BeginExecuteNotification exec s
      ⟨n, NotificationType.NotificationAcknowledgement, checkable.LastCheckResult,
        false, false, author, text⟩)
    rw [h1, h2, h3]
    simp [BeginExecuteNotification]

/-- C15: `FlappingChangedHandler` calls
`BeginExecuteNotification(ntype, last check result, false, false)` once for each
attached notification, with `ntype` FlappingStart when the checkable is
flapping and FlappingEnd otherwise; with FlappingStart every attached
notification has an idle entry afterwards, with FlappingEnd idle and pending
are unchanged. -/
theorem FlappingChangedHandler_effect (exec : ExecEffect) (s : State)
    (checkable : Checkable) (hnodup : checkable.Notifications.Nodup) :
    (FlappingChangedHandler exec s checkable).calls
        = s.calls ++ checkable.Notifications.map (fun n =>
            ⟨n, if checkable.Flapping then NotificationType.NotificationFlappingStart
                else NotificationType.NotificationFlappingEnd,
              checkable.LastCheckResult, false, false, "", ""⟩)
      ∧ (∀ n ∈ checkable.Notifications,
          (((FlappingChangedHandler exec s checkable).calls.drop s.calls.length).filter
              (fun call => call.notification == n))
            = [⟨n, if checkable.Flapping then NotificationType.NotificationFlappingStart
                  else NotificationType.NotificationFlappingEnd,
                checkable.LastCheckResult, false, false, "", ""⟩])
      ∧ (checkable.Flapping = true → ∀ n ∈ checkable.Notifications,
          n ∈ (FlappingChangedHandler exec s checkable).m_IdleNotifications.ids)
      ∧ (checkable.Flapping = false →
          (FlappingChangedHandler exec s checkable).m_IdleNotifications
              = s.m_IdleNotifications
            ∧ (FlappingChangedHandler exec s checkable).m_PendingNotifications
              = s.m_PendingNotifications) := by
  unfold FlappingChangedHandler
  obtain ⟨hcalls, hpending⟩ := FlappingChangedHandlerBody_calls exec checkable
    (if checkable.Flapping then NotificationType.NotificationFlappingStart
      else NotificationType.NotificationFlappingEnd) s checkable.Notifications
  refine ⟨hcalls, ?_, ?_, ?_⟩
  · intro n hn
    simp only
    rw [hcalls, List.drop_left]
    exact calls_filter_map _ (fun _ => rfl) _ hnodup n hn
  · intro hf n hn
    simp only [hf, if_true]
    exact (flapping_start_loop_ids exec checkable n _ s).mpr (Or.inr hn)
  · intro hf
    refine ⟨?_, hpending⟩
    simp only [hf, Bool.false_eq_true, if_false]
    exact flapping_end_loop exec checkable s _

/-- C16: `SetAcknowledgementHandler` calls
`BeginExecuteNotification(Acknowledgement, last check result, false, false,
author, text)` exactly once for each attached notification and leaves idle and
pending unchanged. -/
theorem SetAcknowledgementHandler_effect (exec : ExecEffect) (s : State)
    (checkable : Checkable) (author text : String)
    (hnodup : checkable.Notifications.Nodup) :
    (SetAcknowledgementHandler exec s checkable author text).calls
        = s.calls ++ checkable.Notifications.map (fun n =>
            ⟨n, NotificationType.NotificationAcknowledgement, checkable.LastCheckResult,
              false, false, author, text⟩)
      ∧ (∀ n ∈ checkable.Notifications,
          (((SetAcknowledgementHandler exec s checkable author text).calls.drop
              s.calls.length).filter (fun call => call.notification == n))
            = [⟨n, NotificationType.NotificationAcknowledgement,
                checkable.LastCheckResult, false, false, author, text⟩])
      ∧ (SetAcknowledgementHandler exec s checkable author text).m_IdleNotifications
        = s.m_IdleNotifications
      ∧ (SetAcknowledgementHandler exec s checkable author text).m_PendingNotifications
        = s.m_PendingNotifications := by
  unfold SetAcknowledgementHandler
  obtain ⟨hcalls, hidle, hpending⟩ :=
    SetAcknowledgementHandler_loop exec checkable author text s checkable.Notifications
  refine ⟨hcalls, ?_, hidle, hpending⟩
  intro n hn
  rw [hcalls, List.drop_left]
  exact calls_filter_map _ (fun _ => rfl) _ hnodup n hn

theorem FlappingChangedHandler_effect_witness :
    sampleFlapping.Notifications.Nodup
      ∧ (FlappingChangedHandler sampleExec sampleState sampleFlapping).calls
        = sampleState.calls ++ sampleFlapping.Notifications.map (fun n =>
            ⟨n, if sampleFlapping.Flapping then NotificationType.NotificationFlappingStart
                else NotificationType.NotificationFlappingEnd,
              sampleFlapping.LastCheckResult, false, false, "", ""⟩)
      ∧ (sampleFlapping.Flapping = true → ∀ n ∈ sampleFlapping.Notifications,
          n ∈ (FlappingChangedHandler sampleExec sampleState
            sampleFlapping).m_IdleNotifications.ids) :=
  ⟨by decide,
    (FlappingChangedHandler_effect sampleExec sampleState sampleFlapping (by decide)).1,
    (FlappingChangedHandler_effect sampleExec sampleState sampleFlapping (by decide)).2.2.1⟩

theorem SetAcknowledgementHandler_effect_witness :
    sampleCheckable.Notifications.Nodup
      ∧ (SetAcknowledgementHandler sampleExec sampleScheduled sampleCheckable
          "alice" "working on it").calls
        = sampleScheduled.calls ++ sampleCheckable.Notifications.map (fun n =>
            ⟨n, NotificationType.NotificationAcknowledgement,
              sampleCheckable.LastCheckResult, false, false, "alice", "working on it"⟩)
      ∧ (SetAcknowledgementHandler sampleExec sampleScheduled sampleCheckable
          "alice" "working on it").m_IdleNotifications
        = sampleScheduled.m_IdleNotifications :=
  ⟨by decide,
    (SetAcknowledgementHandler_effect sampleExec sampleScheduled sampleCheckable
      "alice" "working on it" (by decide)).1,
    (SetAcknowledgementHandler_effect sampleExec sampleScheduled sampleCheckable
      "alice" "working on it" (by decide)).2.2.1⟩

/-! ## `NotificationThreadProc` -/

theorem NotificationSet.first_eq_some (s : NotificationSet) (e : NotificationScheduleInfo)
    (h : s.first = some e) : ∃ rest, s.entries = e :: rest := by
  unfold NotificationSet.first at h
  cases hs : s.entries with
  | nil => rw [hs] at h; simp at h
  | cons x rest =>
    rw [hs] at h
    simp only [List.head?_cons, Option.some.injEq] at h
    exact ⟨rest, by rw [h]⟩

/-- Erasing the first entry of a container with unique identities leaves the
other entries, in order. -/
theorem NotificationSet.erase_first (s : NotificationSet) (e : NotificationScheduleInfo)
    (h : s.first = some e) (hwf : s.WF) :
    (s.erase e.Object).entries = s.entries.tail := by
  obtain ⟨rest, hrest⟩ := NotificationSet.first_eq_some s e h
  have hnodup : (e.Object :: rest.map (fun x => x.Object)).Nodup := by
    have := hwf.1
    unfold NotificationSet.ids at this
    rwa [hrest, List.map_cons] at this
  rw [List.nodup_cons] at hnodup
  simp only [NotificationSet.erase, hrest, List.tail_cons, List.filter_cons, bne_self_eq_false,
    Bool.false_eq_true, if_false, List.filter_eq_self]
  intro x hx
  have : x.Object ≠ e.Object := fun hxe => hnodup.1 (List.mem_map.mpr ⟨x, hx, hxe⟩)
  simpa using this

theorem NotificationThreadProc_waits (now : ℚ) (s : State) (e : NotificationScheduleInfo)
    (he : s.m_IdleNotifications.first = some e) (hlate : e.NextMessage > now) :
    NotificationThreadProc now s = s := by
  unfold NotificationThreadProc
  rw [he]
  simp only
  split
  · rfl
  · rw [if_pos (sub_pos.mpr hlate)]

theorem NotificationThreadProc_promotes (now : ℚ) (s : State) (e : NotificationScheduleInfo)
    (he : s.m_IdleNotifications.first = some e) (hstop : s.m_Stopped = false)
    (hdue : ¬ e.NextMessage > now) :
    NotificationThreadProc now s
      = { s with
          m_IdleNotifications := s.m_IdleNotifications.erase e.Object
          m_PendingNotifications := s.m_PendingNotifications.insert
            (GetNotificationScheduleInfo s.objects e.Object)
          queued := s.queued ++ [⟨e.Object, NotificationType.NotificationProblem, true⟩] } := by
  unfold NotificationThreadProc
  rw [he]
  simp only [hstop, Bool.false_eq_true, if_false]
  rw [if_neg (fun h => hdue (sub_pos.mp h))]

/-- C17 (as stated, refuted): idle is non-empty, the component is not stopped,
the first idle entry `(1, 10)` is due at `now = 10`, and notification `1` also
has the pending entry `(1, 5)`. The pass removes `1` from idle and submits the
dispatch, but the insertion into pending is refused: pending keeps `(1, 5)` and
gains no entry with the current next notification time `10`. -/
theorem NotificationThreadProc_pending_insert_refused :
    sampleInBoth.m_Stopped = false
      ∧ sampleInBoth.m_IdleNotifications.first = some ⟨1, 10⟩
      ∧ (sampleInBoth.objects 1).NextNotification = 10
      ∧ (NotificationThreadProc 10 sampleInBoth).m_IdleNotifications.entries = []
      ∧ (NotificationThreadProc 10 sampleInBoth).queued
        = [⟨1, NotificationType.NotificationProblem, true⟩]
      ∧ (NotificationThreadProc 10 sampleInBoth).m_PendingNotifications.entries = [⟨1, 5⟩]
      ∧ ⟨1, (sampleInBoth.objects 1).NextNotification⟩
        ∉ (NotificationThreadProc 10 sampleInBoth).m_PendingNotifications.entries := by
  rw [NotificationThreadProc_promotes 10 sampleInBoth ⟨1, 10⟩ rfl rfl (by decide)]
  decide

/-- C17 (amended): one pass of the scheduler loop with idle non-empty (well
formed, first entry `e`) and the stopped flag false. The entry `e` has the
minimum time of idle. If `e.NextMessage > now`, nothing changes and nothing is
dispatched. Otherwise exactly `e` is removed from idle and one dispatch with
type Problem and reminder true is submitted, and, when pending holds no entry
for the notification of `e`, pending gains an entry for the notification with
its current next notification time (and nothing else changes in pending). -/
theorem NotificationThreadProc_pass (now : ℚ) (s : State) (e : NotificationScheduleInfo)
    (hwf : s.m_IdleNotifications.WF)
    (he : s.m_IdleNotifications.first = some e)
    (hstop : s.m_Stopped = false) :
    (∀ x ∈ s.m_IdleNotifications.entries, e.NextMessage ≤ x.NextMessage)
      ∧ (e.NextMessage > now → NotificationThreadProc now s = s)
      ∧ (¬ e.NextMessage > now →
          (NotificationThreadProc now s).m_IdleNotifications.entries
              = s.m_IdleNotifications.entries.tail
            ∧ e.Object ∉ (NotificationThreadProc now s).m_IdleNotifications.ids
            ∧ (NotificationThreadProc now s).queued
              = s.queued ++ [⟨e.Object, NotificationType.NotificationProblem, true⟩]
            ∧ (e.Object ∉ s.m_PendingNotifications.ids →
                ∀ x, x ∈ (NotificationThreadProc now s).m_PendingNotifications.entries
                  ↔ x ∈ s.m_PendingNotifications.entries
                    ∨ x = ⟨e.Object, (s.objects e.Object).NextNotification⟩)) := by
  refine ⟨?_, NotificationThreadProc_waits now s e he, ?_⟩
  · obtain ⟨rest, hrest⟩ := NotificationSet.first_eq_some _ e he
    have hsorted := hwf.2
    rw [hrest, List.pairwise_cons] at hsorted
    intro x hx
    rw [hrest] at hx
    rcases List.mem_cons.mp hx with rfl | hx
    · exact le_refl _
    · exact hsorted.1 x hx
  · intro hdue
    rw [NotificationThreadProc_promotes now s e he hstop hdue]
    refine ⟨NotificationSet.erase_first _ e he hwf,
      fun h => ((NotificationSet.mem_ids_erase _ _ _).mp h).2 rfl, rfl, ?_⟩
    intro hpending x
    rw [NotificationSet.mem_insert]
    simp only [GetNotificationScheduleInfo]
    constructor
    · rintro (h | h)
      · exact Or.inl h
      · exact Or.inr h.1
    · rintro (h | h)
      · exact Or.inl h
      · exact Or.inr ⟨h, hpending⟩

theorem NotificationThreadProc_pass_witness :
    (∀ x ∈ sampleScheduled.m_IdleNotifications.entries, (10 : ℚ) ≤ x.NextMessage)
      ∧ ((10 : ℚ) > 10 → NotificationThreadProc 10 sampleScheduled = sampleScheduled)
      ∧ (¬ (10 : ℚ) > 10 →
          (NotificationThreadProc 10 sampleScheduled).m_IdleNotifications.entries
              = sampleScheduled.m_IdleNotifications.entries.tail
            ∧ 1 ∉ (NotificationThreadProc 10 sampleScheduled).m_IdleNotifications.ids
            ∧ (NotificationThreadProc 10 sampleScheduled).queued
              = sampleScheduled.queued
                ++ [⟨1, NotificationType.NotificationProblem, true⟩]
            ∧ (1 ∉ sampleScheduled.m_PendingNotifications.ids →
                ∀ x, x ∈ (NotificationThreadProc 10
                    sampleScheduled).m_PendingNotifications.entries
                  ↔ x ∈ sampleScheduled.m_PendingNotifications.entries
                    ∨ x = ⟨1, (sampleScheduled.objects 1).NextNotification⟩)) :=
  NotificationThreadProc_pass 10 sampleScheduled ⟨1, 10⟩
    ⟨by decide, by decide⟩ rfl rfl

/-! ## How entries enter pending -/

theorem StateChangeHandler_pending (exec : ExecEffect) (s : State) (checkable : Checkable)
    (cr : CheckResult) (type : StateType) :
    (StateChangeHandler exec s checkable cr type).m_PendingNotifications
      = s.m_PendingNotifications := by
  unfold StateChangeHandler
  split
  · split
    · rfl
    · exact (StateChangeHandlerBody_calls exec checkable _ s _).2
  · rfl

theorem ObjectHandler_pending (s : State) (object : ConfigObject) (n : Nat)
    (hn : n ∈ (ObjectHandler s object).m_PendingNotifications.ids) :
    n ∈ s.m_PendingNotifications.ids := by
  cases object with
  | other id => exact hn
  | notification m =>
    cases hp : ObjectHandlerProceeds (s.objects m).Checkable with
    | false => rwa [ObjectHandler_early s m hp] at hn
    | true =>
      rw [ObjectHandler_proceeds s m hp] at hn
      split at hn
      · cases hf : s.m_PendingNotifications.find m with
        | none => rw [hf] at hn; exact hn
        | some y => rw [hf] at hn; exact hn
      · exact ((NotificationSet.mem_ids_erase _ _ _).mp hn).1

theorem SendMessageHelper_pending (exec : ExecEffect) (now : ℚ) (s : State)
    (notification : Nat) (type : NotificationType) (reminder : Bool) (n : Nat)
    (hn : n ∈ (SendMessageHelper exec now s notification type
      reminder).m_PendingNotifications.ids) :
    n ∈ s.m_PendingNotifications.ids := by
  cases hact : (s.objects notification).Active with
  | false =>
    rw [SendMessageHelper_inactive exec now s notification type reminder hact] at hn
    exact ((NotificationSet.mem_ids_erase _ _ _).mp hn).1
  | true =>
    by_cases hp : notification ∈ s.m_PendingNotifications.ids
    · rw [SendMessageHelper_active exec now s notification type reminder hact hp _ _
        rfl rfl] at hn
      exact ((NotificationSet.mem_ids_erase _ _ _).mp hn).1
    · have hf := (NotificationSet.find_eq_none_iff _ _).mpr hp
      unfold SendMessageHelper at hn
      simp only [hact, Bool.not_true, Bool.false_eq_true, if_false] at hn
      by_cases hc : HardStateNotificationCheck (s.objects notification).Checkable = true
      · simp only [hc, if_true, BeginExecuteNotification, hf] at hn
        exact hn
      · simp only [hc, Bool.false_eq_true, if_false, hf] at hn
        exact hn

theorem NotificationThreadProc_pending (now : ℚ) (s : State) (n : Nat)
    (hn : n ∈ (NotificationThreadProc now s).m_PendingNotifications.ids) :
    n ∈ s.m_PendingNotifications.ids
      ∨ (n ∈ s.m_IdleNotifications.ids
        ∧ n ∉ (NotificationThreadProc now s).m_IdleNotifications.ids) := by
  cases he : s.m_IdleNotifications.first with
  | none =>
    unfold NotificationThreadProc at hn
    rw [he] at hn
    exact Or.inl hn
  | some e =>
    cases hstop : s.m_Stopped with
    | true =>
      unfold NotificationThreadProc at hn
      rw [he] at hn
      simp only [hstop, if_true] at hn
      exact Or.inl hn
    | false =>
      by_cases hlate : e.NextMessage > now
      · rw [NotificationThreadProc_waits now s e he hlate] at hn
        exact Or.inl hn
      · rw [NotificationThreadProc_promotes now s e he hstop hlate] at hn ⊢
        rcases (NotificationSet.mem_ids_insert _ _ _).mp hn with h | h
        · exact Or.inl h
        · right
          obtain ⟨rest, hrest⟩ := NotificationSet.first_eq_some _ e he
          have hmem : e.Object ∈ s.m_IdleNotifications.ids := by
            unfold NotificationSet.ids
            rw [hrest]
            simp
          have hn' : n = e.Object := h
          subst hn'
          exact ⟨hmem, fun h2 => ((NotificationSet.mem_ids_erase _ _ _).mp h2).2 rfl⟩

/-- C18: entries enter pending only through the promotion of an idle entry by
the scheduler. After any step, a notification in pending was in pending before,
or the step was a pass of the scheduler thread and the notification was in idle
before and is no longer in idle after: the five event handlers and
`SendMessageHelper` leave the notifications in pending a subset of what they
were. -/
theorem pending_entered_by_promotion (exec : ExecEffect) (s : State) (event : Event)
    (n : Nat) (hn : n ∈ (step exec s event).m_PendingNotifications.ids) :
    n ∈ s.m_PendingNotifications.ids
      ∨ ((∃ now, event = Event.notificationThread now)
        ∧ n ∈ s.m_IdleNotifications.ids
        ∧ n ∉ (step exec s event).m_IdleNotifications.ids) := by
  cases event with
  | stateChange checkable cr type =>
    left
    simpa only [step, StateChangeHandler_pending] using hn
  | flappingChanged checkable =>
    left
    simpa only [step, FlappingChangedHandler,
      (FlappingChangedHandlerBody_calls exec checkable _ s _).2] using hn
  | setAcknowledgement checkable author text =>
    left
    simpa only [step, SetAcknowledgementHandler,
      (SetAcknowledgementHandler_loop exec checkable author text s _).2.2] using hn
  | object object => exact Or.inl (ObjectHandler_pending s object n hn)
  | nextNotificationChanged notification origin =>
    left
    simpa only [step, (NextNotificationChangedHandler_step s notification origin).2.2]
      using hn
  | notificationThread now =>
    rcases NotificationThreadProc_pending now s n hn with h | h
    · exact Or.inl h
    · exact Or.inr ⟨⟨now, rfl⟩, h⟩
  | sendMessage now notification type reminder =>
    exact Or.inl (SendMessageHelper_pending exec now s notification type reminder n hn)

theorem pending_entered_by_promotion_witness :
    1 ∈ sampleScheduled.m_PendingNotifications.ids
      ∨ ((∃ now, Event.notificationThread 10 = Event.notificationThread now)
        ∧ 1 ∈ sampleScheduled.m_IdleNotifications.ids
        ∧ 1 ∉ (step sampleExec sampleScheduled
            (Event.notificationThread 10)).m_IdleNotifications.ids) :=
  pending_entered_by_promotion sampleExec sampleScheduled (Event.notificationThread 10) 1
    (by
      show 1 ∈ (NotificationThreadProc 10 sampleScheduled).m_PendingNotifications.ids
      rw [NotificationThreadProc_promotes 10 sampleScheduled ⟨1, 10⟩ rfl rfl (by decide)]
      decide)

/-! ## Insertion into idle does not overwrite -/

/-- An insertion leaves the entries of identity `N` alone when `N` is already
present or the new element has another identity. -/
theorem NotificationSet.insert_filter_eq (s : NotificationSet)
    (x : NotificationScheduleInfo) (N : Nat) (h : x.Object ≠ N ∨ N ∈ s.ids) :
    (s.insert x).entries.filter (fun e => e.Object == N)
      = s.entries.filter (fun e => e.Object == N) := by
  unfold NotificationSet.insert
  cases hf : s.find x.Object with
  | some y => rfl
  | none =>
    have hx := (NotificationSet.find_eq_none_iff s x.Object).mp hf
    have hne : x.Object ≠ N := by
      rcases h with h | h
      · exact h
      · exact fun hxN => hx (hxN ▸ h)
    exact NotificationSet.filter_insertByTime_neg _ x s.entries (by simpa using hne)

/-- In a container with unique identities, the entries of the identity of a
member are that member alone. -/
theorem NotificationSet.filter_eq_singleton (s : NotificationSet) (N : Nat) (t : ℚ)
    (hnodup : s.ids.Nodup) (hmem : ⟨N, t⟩ ∈ s.entries) :
    s.entries.filter (fun e => e.Object == N) = [⟨N, t⟩] := by
  cases s with
  | mk entries =>
    simp only [NotificationSet.ids] at hnodup
    simp only at hmem ⊢
    induction entries with
    | nil => simp at hmem
    | cons y ys ih =>
      rw [List.map_cons, List.nodup_cons] at hnodup
      rcases List.mem_cons.mp hmem with h | h
      · subst h
        have hnil : ys.filter (fun e => e.Object == N) = [] := by
          rw [List.filter_eq_nil_iff]
          intro e he
          have : e.Object ≠ N := fun heN => hnodup.1 (List.mem_map.mpr ⟨e, he, heN⟩)
          simpa using this
        simp [List.filter_cons, hnil]
      · have hy : y.Object ≠ N := fun hyN =>
          hnodup.1 (List.mem_map.mpr ⟨⟨N, t⟩, h, hyN.symm⟩)
        simp [List.filter_cons, hy, ih hnodup.2 h]

theorem problem_loop_filter (exec : ExecEffect) (checkable : Checkable) (N : Nat)
    (l : List Nat) (s : State) (hN : N ∈ s.m_IdleNotifications.ids) :
    (l.foldl (StateChangeHandlerBody exec checkable NotificationType.NotificationProblem)
        s).m_IdleNotifications.entries.filter (fun e => e.Object == N)
      = s.m_IdleNotifications.entries.filter (fun e => e.Object == N) := by
  induction l generalizing s with
  | nil => rfl
  | cons n l ih =>
    rw [List.foldl_cons, ih, StateChangeHandlerBody_problem]
    · exact NotificationSet.insert_filter_eq _ _ N (Or.inr hN)
    · rw [StateChangeHandlerBody_problem]
      exact (NotificationSet.mem_ids_insert _ _ _).mpr (Or.inl hN)

theorem flapping_start_loop_filter (exec : ExecEffect) (checkable : Checkable) (N : Nat)
    (l : List Nat) (s : State) (hN : N ∈ s.m_IdleNotifications.ids) :
    (l.foldl (FlappingChangedHandlerBody exec checkable
        NotificationType.NotificationFlappingStart)
        s).m_IdleNotifications.entries.filter (fun e => e.Object == N)
      = s.m_IdleNotifications.entries.filter (fun e => e.Object == N) := by
  induction l generalizing s with
  | nil => rfl
  | cons n l ih =>
    have hbody : (FlappingChangedHandlerBody exec checkable
        NotificationType.NotificationFlappingStart s n).m_IdleNotifications
        = s.m_IdleNotifications.insert (GetNotificationScheduleInfo
            (exec ⟨n, NotificationType.NotificationFlappingStart,
              checkable.LastCheckResult, false, false, "", ""⟩ s.objects) n) := by
      simp [FlappingChangedHandlerBody, BeginExecuteNotification]
    rw [List.foldl_cons, ih, hbody]
    · exact NotificationSet.insert_filter_eq _ _ N (Or.inr hN)
    · rw [hbody]
      exact (NotificationSet.mem_ids_insert _ _ _).mpr (Or.inl hN)

theorem ObjectHandler_activation_filter (s : State) (m N : Nat)
    (hN : N ∈ s.m_IdleNotifications.ids)
    (hact : (s.objects m).Active = true) (hpaused : (s.objects m).Paused = false)
    (hzone : (s.objects m).Zone = none ∨ s.localZone = (s.objects m).Zone) :
    (ObjectHandler s (ConfigObject.notification m)).m_IdleNotifications.entries.filter
        (fun e => e.Object == N)
      = s.m_IdleNotifications.entries.filter (fun e => e.Object == N) := by
  cases hp : ObjectHandlerProceeds (s.objects m).Checkable with
  | false => rw [ObjectHandler_early s m hp]
  | true =>
    have hcond : ((s.objects m).Active && !(s.objects m).Paused
        && ((s.objects m).Zone.isNone || s.localZone == (s.objects m).Zone)) = true := by
      rcases hzone with hz | hz
      · simp [hact, hpaused, hz]
      · simp [hact, hpaused, hz]
    rw [ObjectHandler_proceeds s m hp, if_pos hcond]
    cases hf : s.m_PendingNotifications.find m with
    | some y => rfl
    | none => exact NotificationSet.insert_filter_eq _ _ N (Or.inr hN)

/-- C19: insertion into idle never overwrites. If idle (with unique identities)
holds the entry `(N, t)`, then after a Hard non-OK state change that passes
`HardStateNotificationCheck`, after a FlappingStart event, and after
`ObjectHandler` for an active, unpaused notification of the same zone, the
entry of idle for `N` is still `(N, t)`, whatever the next notification time of
`N` is at the time of the event. -/
theorem idle_insert_keeps_entry (exec : ExecEffect) (s : State) (N : Nat) (t : ℚ)
    (hnodup : s.m_IdleNotifications.ids.Nodup)
    (hentry : ⟨N, t⟩ ∈ s.m_IdleNotifications.entries) :
    (∀ checkable cr, HardStateNotificationCheck checkable = true → cr.State ≠ 0 →
        (StateChangeHandler exec s checkable cr
          StateType.StateTypeHard).m_IdleNotifications.entries.filter
            (fun e => e.Object == N) = [⟨N, t⟩])
      ∧ (∀ checkable, checkable.Flapping = true →
        (FlappingChangedHandler exec s checkable).m_IdleNotifications.entries.filter
            (fun e => e.Object == N) = [⟨N, t⟩])
      ∧ (∀ m, (s.objects m).Active = true → (s.objects m).Paused = false →
        ((s.objects m).Zone = none ∨ s.localZone = (s.objects m).Zone) →
        (ObjectHandler s (ConfigObject.notification m)).m_IdleNotifications.entries.filter
            (fun e => e.Object == N) = [⟨N, t⟩]) := by
  have hN : N ∈ s.m_IdleNotifications.ids := List.mem_map.mpr ⟨⟨N, t⟩, hentry, rfl⟩
  have hs := NotificationSet.filter_eq_singleton s.m_IdleNotifications N t hnodup hentry
  refine ⟨?_, ?_, ?_⟩
  · intro checkable cr hcheck hcr
    rw [StateChangeHandler_problem_eq exec s checkable cr hcheck hcr,
      problem_loop_filter exec checkable N _ s hN, hs]
  · intro checkable hf
    unfold FlappingChangedHandler
    simp only [hf, if_true]
    rw [flapping_start_loop_filter exec checkable N _ s hN, hs]
  · intro m hact hpaused hzone
    rw [ObjectHandler_activation_filter s m N hN hact hpaused hzone, hs]

theorem idle_insert_keeps_entry_witness :
    (StateChangeHandler sampleExec { sampleScheduled with objects := sampleLater }
        sampleCheckable sampleProblem
        StateType.StateTypeHard).m_IdleNotifications.entries.filter
          (fun e => e.Object == 1) = [⟨1, 10⟩]
      ∧ (sampleLater 1).NextNotification = 20 :=
  ⟨(idle_insert_keeps_entry sampleExec { sampleScheduled with objects := sampleLater } 1 10
      (by decide) (by decide)).1 sampleCheckable sampleProblem (by decide) (by decide),
    rfl⟩

/-! ## The closed form of `HardStateNotificationCheck` -/

/-- C20: `HardStateNotificationCheck` equals the closed form that ignores the
positive rules (true exactly when reachable, not in downtime, not acknowledged,
not flapping, and not: previous raw state OK and (previous state type Soft, or
volatile with current raw state OK)), and its result does not depend on the
current state type. -/
theorem HardStateNotificationCheck_closed_form (checkable : Checkable) :
    HardStateNotificationCheck checkable = HardStateNotificationCheckClosedForm checkable
      ∧ ∀ stateType : StateType,
          HardStateNotificationCheck { checkable with StateType := stateType }
            = HardStateNotificationCheck checkable := by
  refine ⟨?_, fun _ => rfl⟩
  unfold HardStateNotificationCheck HardStateNotificationCheckClosedForm
  cases checkable.Reachable <;> cases checkable.InDowntime <;>
    cases checkable.Acknowledged <;> cases checkable.Flapping <;>
    cases checkable.Volatile <;> cases checkable.LastStateType <;>
    by_cases h1 : checkable.LastStateRaw = ServiceOK <;>
    by_cases h2 : checkable.StateRaw = ServiceOK <;> simp [h1, h2]

end Icinga
